import Mathlib

/-!
# QTCompress.c : a shallow embedding

The file `QTCompress.c` drives QuickTime's standard image-compression dialog
component.  Almost every statement of `QTCmpr_CompressSequence` is a call into
the QuickTime toolbox, so the embedding is a *trace semantics*:

* `World` holds the answers of the toolbox (and of the user) to the calls whose
  result the C code inspects;
* `Call` is one toolbox call, with the arguments the function computed itself;
* a run of a C function is the `List Call` it issues, in program order, together
  with the way the run ended (`Status`).

C integers: `short` is 16 bits, `long` is 32 bits (68k, PowerPC and Win32
targets of the sample).  They are embedded as `Int`, with `wrapShort` and
`wrapLong` applied where the C code increments a `short` or multiplies two
`long`s.  Integer division is C division (truncation toward zero, `Int.tdiv`);
a zero divisor ends the run with `Status.divideByZero`.

C floating point: `float` is IEEE 754 single precision (a significand of 24 bits,
rounding to nearest, ties to even), embedded as `Single`; its operations are
computed on integers, and `IsRoundedSingle` relates them to the rationals.
-/

namespace QTCompress

/-! ## Machine integers -/

/-- Value of a 16-bit two's complement `short` after storing the integer `x`. -/
def wrapShort (x : Int) : Int := (x + 32768) % 65536 - 32768

/-- Value of a 32-bit two's complement `long` after storing the integer `x`. -/
def wrapLong (x : Int) : Int := (x + 2147483648) % 4294967296 - 2147483648

/-- The Mac OS result code `noErr`. -/
def noErr : Int := 0

/-- The result code `scUserCancelled` of the standard compression component. -/
def scUserCancelled : Int := 1

/-- The flag `codecCompletionDest` passed to ICM completion procedures. -/
def codecCompletionDest : Int := 2

/-! ## Build configuration (`QTCompress.h`) -/

/-- Compile-time constants of `QTCompress.h`, which the C file only uses. -/
structure Config where
  /-- The switch `USE_ASYNC_COMPRESSION`, as a truth value. -/
  useAsyncCompression : Bool
  /-- The switch `USE_CUSTOM_BUTTON`, as a truth value. -/
  useCustomButton : Bool
  /-- The sentinel `kAsyncDefaultValue` stored before each asynchronous request. -/
  kAsyncDefaultValue : Int
deriving DecidableEq, Repr

/-! ## Toolbox calls -/

/-- Selectors of `SCGetInfo` and `SCSetInfo` used by the file. -/
inductive Selector
  | scPreferenceFlagsType
  | scTemporalSettingsType
  | scDataRateSettingsType
  | scCodecFlagsType
  | scExtendedProcsType
deriving DecidableEq, Repr

/-- One call issued by the C code.  A result code is recorded where the C code
receives one from the call; an argument is recorded where the C code computes it. -/
inductive Call
  | QTUtils_ConvertCToPascalString
  | GetMovieIndTrackType
  | SetMovieRate
  | GetMovieTime
  | OpenDefaultComponent
  /-- The call `SCGetInfo(component, selector, ...)` and its result code
  (`none` where the C code discards it). -/
  | SCGetInfo (sel : Selector) (result : Option Int)
  /-- The call `SCSetInfo(component, selector, ...)`; `value` is the frame rate
  (temporal settings) or the frame duration (data-rate settings) just assigned,
  or `0` for a `NULL` argument. -/
  | SCSetInfo (sel : Selector) (value : Option Int)
  | QTUtils_GetFrameCount
  | GetMoviePosterPict
  | GetMovieBox
  | NewGWorld (result : Int)
  | QTNewGWorld (result : Int)
  | GetGWorldPixMap
  | LockPixels (locked : Bool)
  | GetGWorld
  | SetGWorld
  | EraseRect
  | DrawPicture
  | KillPicture
  | SCSetTestImagePixMap
  | NewSCModalFilterUPP
  | NewSCModalHookUPP
  | BlockMove
  | SCDefaultPixMapSettings
  | SCRequestSequenceSettings (result : Int)
  | GetMovieDuration
  | GetMovieTimeScale
  | QTFrame_PutFile (selected : Bool)
  | DeleteMovieFile (result : Int)
  | CreateMovieFile (result : Int)
  | NewMovieTrack
  | NewTrackMedia
  | CopyMovieSettings
  | SetIdentityMatrix
  | SetMovieMatrix
  | SetMovieClipRgn
  | SetMoviePlayHints
  | NewHandleClear
  | BeginMediaEdits (result : Int)
  | SCCompressSequenceBegin (result : Int)
  | GetGWorldDevice
  | SetMovieGWorld
  /-- The call `GetMovieNextInterestingTime`, with the `nextTimeEdgeOK` bit of
  its flags and the time it starts from. -/
  | GetMovieNextInterestingTime (edgeOK : Bool) (fromTime : Int)
  | SetMovieTimeValue (time : Int)
  | MoviesTask
  | SCCompressSequenceFrame (result : Int)
  | NewICMCompletionProc
  | SCCompressSequenceFrameAsync (result : Int)
  | WaitNextEvent
  | SCAsyncIdle
  | AddMediaSample (duration : Int) (result : Int)
  | SCCompressSequenceEnd
  | EndMediaEdits (result : Int)
  | GetMediaDuration
  | InsertMediaIntoTrack (duration : Int)
  | AddMovieResource (result : Int)
  | CloseMovieFile
  | CloseComponent
  | DisposeGWorld
  | DisposeICMCompletionUPP
  | free
  | GetGraphicsImporterForFile (result : Int)
  | GraphicsImportGetNaturalBounds (result : Int)
  | GraphicsImportSetGWorld
  | GraphicsImportDraw
  | SCRequestImageSettings (result : Int)
  | SCCompressImage (result : Int)
  | QTCmpr_PromptUserForDiskFileAndSaveCompressed
  | DisposeSCModalFilterUPP
  | DisposeSCModalHookUPP
  | GetPixelsState
  | UnlockPixels
  | DisposeHandle
deriving Repr

/-- The routines called by the file: one name for each constructor of `Call`. -/
inductive Routine
  | QTUtils_ConvertCToPascalString
  | GetMovieIndTrackType
  | SetMovieRate
  | GetMovieTime
  | OpenDefaultComponent
  | SCGetInfo
  | SCSetInfo
  | QTUtils_GetFrameCount
  | GetMoviePosterPict
  | GetMovieBox
  | NewGWorld
  | QTNewGWorld
  | GetGWorldPixMap
  | LockPixels
  | GetGWorld
  | SetGWorld
  | EraseRect
  | DrawPicture
  | KillPicture
  | SCSetTestImagePixMap
  | NewSCModalFilterUPP
  | NewSCModalHookUPP
  | BlockMove
  | SCDefaultPixMapSettings
  | SCRequestSequenceSettings
  | GetMovieDuration
  | GetMovieTimeScale
  | QTFrame_PutFile
  | DeleteMovieFile
  | CreateMovieFile
  | NewMovieTrack
  | NewTrackMedia
  | CopyMovieSettings
  | SetIdentityMatrix
  | SetMovieMatrix
  | SetMovieClipRgn
  | SetMoviePlayHints
  | NewHandleClear
  | BeginMediaEdits
  | SCCompressSequenceBegin
  | GetGWorldDevice
  | SetMovieGWorld
  | GetMovieNextInterestingTime
  | SetMovieTimeValue
  | MoviesTask
  | SCCompressSequenceFrame
  | NewICMCompletionProc
  | SCCompressSequenceFrameAsync
  | WaitNextEvent
  | SCAsyncIdle
  | AddMediaSample
  | SCCompressSequenceEnd
  | EndMediaEdits
  | GetMediaDuration
  | InsertMediaIntoTrack
  | AddMovieResource
  | CloseMovieFile
  | CloseComponent
  | DisposeGWorld
  | DisposeICMCompletionUPP
  | free
  | GetGraphicsImporterForFile
  | GraphicsImportGetNaturalBounds
  | GraphicsImportSetGWorld
  | GraphicsImportDraw
  | SCRequestImageSettings
  | SCCompressImage
  | QTCmpr_PromptUserForDiskFileAndSaveCompressed
  | DisposeSCModalFilterUPP
  | DisposeSCModalHookUPP
  | GetPixelsState
  | UnlockPixels
  | DisposeHandle
deriving DecidableEq, Repr

/-- The routine a call is a call of. -/
def Call.routine : Call → Routine
  | .QTUtils_ConvertCToPascalString => .QTUtils_ConvertCToPascalString
  | .GetMovieIndTrackType => .GetMovieIndTrackType
  | .SetMovieRate => .SetMovieRate
  | .GetMovieTime => .GetMovieTime
  | .OpenDefaultComponent => .OpenDefaultComponent
  | .SCGetInfo _ _ => .SCGetInfo
  | .SCSetInfo _ _ => .SCSetInfo
  | .QTUtils_GetFrameCount => .QTUtils_GetFrameCount
  | .GetMoviePosterPict => .GetMoviePosterPict
  | .GetMovieBox => .GetMovieBox
  | .NewGWorld _ => .NewGWorld
  | .QTNewGWorld _ => .QTNewGWorld
  | .GetGWorldPixMap => .GetGWorldPixMap
  | .LockPixels _ => .LockPixels
  | .GetGWorld => .GetGWorld
  | .SetGWorld => .SetGWorld
  | .EraseRect => .EraseRect
  | .DrawPicture => .DrawPicture
  | .KillPicture => .KillPicture
  | .SCSetTestImagePixMap => .SCSetTestImagePixMap
  | .NewSCModalFilterUPP => .NewSCModalFilterUPP
  | .NewSCModalHookUPP => .NewSCModalHookUPP
  | .BlockMove => .BlockMove
  | .SCDefaultPixMapSettings => .SCDefaultPixMapSettings
  | .SCRequestSequenceSettings _ => .SCRequestSequenceSettings
  | .GetMovieDuration => .GetMovieDuration
  | .GetMovieTimeScale => .GetMovieTimeScale
  | .QTFrame_PutFile _ => .QTFrame_PutFile
  | .DeleteMovieFile _ => .DeleteMovieFile
  | .CreateMovieFile _ => .CreateMovieFile
  | .NewMovieTrack => .NewMovieTrack
  | .NewTrackMedia => .NewTrackMedia
  | .CopyMovieSettings => .CopyMovieSettings
  | .SetIdentityMatrix => .SetIdentityMatrix
  | .SetMovieMatrix => .SetMovieMatrix
  | .SetMovieClipRgn => .SetMovieClipRgn
  | .SetMoviePlayHints => .SetMoviePlayHints
  | .NewHandleClear => .NewHandleClear
  | .BeginMediaEdits _ => .BeginMediaEdits
  | .SCCompressSequenceBegin _ => .SCCompressSequenceBegin
  | .GetGWorldDevice => .GetGWorldDevice
  | .SetMovieGWorld => .SetMovieGWorld
  | .GetMovieNextInterestingTime _ _ => .GetMovieNextInterestingTime
  | .SetMovieTimeValue _ => .SetMovieTimeValue
  | .MoviesTask => .MoviesTask
  | .SCCompressSequenceFrame _ => .SCCompressSequenceFrame
  | .NewICMCompletionProc => .NewICMCompletionProc
  | .SCCompressSequenceFrameAsync _ => .SCCompressSequenceFrameAsync
  | .WaitNextEvent => .WaitNextEvent
  | .SCAsyncIdle => .SCAsyncIdle
  | .AddMediaSample _ _ => .AddMediaSample
  | .SCCompressSequenceEnd => .SCCompressSequenceEnd
  | .EndMediaEdits _ => .EndMediaEdits
  | .GetMediaDuration => .GetMediaDuration
  | .InsertMediaIntoTrack _ => .InsertMediaIntoTrack
  | .AddMovieResource _ => .AddMovieResource
  | .CloseMovieFile => .CloseMovieFile
  | .CloseComponent => .CloseComponent
  | .DisposeGWorld => .DisposeGWorld
  | .DisposeICMCompletionUPP => .DisposeICMCompletionUPP
  | .free => .free
  | .GetGraphicsImporterForFile _ => .GetGraphicsImporterForFile
  | .GraphicsImportGetNaturalBounds _ => .GraphicsImportGetNaturalBounds
  | .GraphicsImportSetGWorld => .GraphicsImportSetGWorld
  | .GraphicsImportDraw => .GraphicsImportDraw
  | .SCRequestImageSettings _ => .SCRequestImageSettings
  | .SCCompressImage _ => .SCCompressImage
  | .QTCmpr_PromptUserForDiskFileAndSaveCompressed => .QTCmpr_PromptUserForDiskFileAndSaveCompressed
  | .DisposeSCModalFilterUPP => .DisposeSCModalFilterUPP
  | .DisposeSCModalHookUPP => .DisposeSCModalHookUPP
  | .GetPixelsState => .GetPixelsState
  | .UnlockPixels => .UnlockPixels
  | .DisposeHandle => .DisposeHandle

/-- The routines called by a trace, in order. -/
def routines (t : List Call) : List Routine := t.map Call.routine

/-- How a run of a C function ended. -/
inductive Status
  /-- The function returned to its caller. -/
  | returned
  /-- An integer division by zero was executed. -/
  | divideByZero
  /-- A floating value was converted to `long` that is a quotient by zero or whose
  integer part does not fit a `long`. -/
  | undefinedConversion
  /-- The model stopped a loop that had not finished within the fuel given. -/
  | outOfFuel
deriving DecidableEq, Repr

/-- The global `gProcStruct`: which of its two routine descriptors are allocated. -/
structure ProcStruct where
  filterProc : Bool
  hookProc : Bool
deriving DecidableEq, Repr

/-- What a run of `QTCmpr_CompressSequence` or `QTCmpr_CompressImage` did. -/
structure Run where
  trace : List Call
  status : Status
  gProcStruct : ProcStruct
deriving Repr

/-! ## The answers of the toolbox -/

/-- Everything `QTCmpr_CompressSequence` learns from outside: the window object it
is given, the global `gUseExtendedProcs`, and the results of the toolbox calls it
inspects.  A `Bool` field is `true` when the pointer or handle returned is not
`NULL`; an `Int` field is a result code or a value returned.  The loop's calls are
indexed by the number of the iteration (from 0) in which they are made. -/
structure World where
  /-- The global `gUseExtendedProcs`. -/
  gUseExtendedProcs : Bool
  /-- The global `gProcStruct` when the function is entered. -/
  gProcStruct : ProcStruct
  /-- Whether `theWindowObject` is not `NULL`. -/
  theWindowObject : Bool
  /-- Whether `(**theWindowObject).fMovie` is not `NULL`. -/
  fMovie : Bool
  /-- Whether `GetMovieIndTrackType` finds a video track. -/
  videoTrack : Bool
  /-- Value of `GetMovieTime(mySrcMovie, NULL)`. -/
  movieTime : Int
  /-- Whether `OpenDefaultComponent` returns an instance. -/
  component : Bool
  /-- Value of `QTUtils_GetFrameCount(mySrcTrack)`. -/
  frameCount : Int
  /-- Whether `GetMoviePosterPict` returns a picture. -/
  posterPict : Bool
  /-- Result of `NewGWorld`. -/
  newGWorld : Int
  /-- Value of `LockPixels(myPixMap)`. -/
  lockPixels : Bool
  /-- Result of the first `SCGetInfo(..., scTemporalSettingsType, ...)`. -/
  getTemporalSettings : Int
  /-- Result of `SCRequestSequenceSettings`. -/
  requestSequenceSettings : Int
  /-- The field `myTimeSettings.frameRate` (a 16.16 `Fixed`) after the dialog. -/
  frameRate : Int
  /-- Value of `GetMovieDuration(mySrcMovie)`. -/
  movieDuration : Int
  /-- Value of `GetMovieTimeScale(mySrcMovie)`. -/
  movieTimeScale : Int
  /-- The flag `myIsSelected` set by `QTFrame_PutFile`. -/
  fileSelected : Bool
  /-- The flag `myIsReplacing` set by `QTFrame_PutFile`. -/
  isReplacing : Bool
  /-- Result of `DeleteMovieFile`. -/
  deleteMovieFile : Int
  /-- Result of `CreateMovieFile`. -/
  createMovieFile : Int
  /-- Whether `NewMovieTrack` returns a track. -/
  newMovieTrack : Bool
  /-- Whether `NewTrackMedia` returns a media. -/
  newTrackMedia : Bool
  /-- Whether `NewHandleClear` returns a handle. -/
  newHandleClear : Bool
  /-- Result of `BeginMediaEdits`. -/
  beginMediaEdits : Int
  /-- Result of `SCCompressSequenceBegin`. -/
  compressSequenceBegin : Int
  /-- The pair (interesting time, duration) that `GetMovieNextInterestingTime`
  returns, given the `nextTimeEdgeOK` bit and the time it starts from. -/
  nextInterestingTime : Bool → Int → Int × Int
  /-- Result of `SCGetInfo(..., scDataRateSettingsType, ...)` in iteration `j`. -/
  getDataRateSettings : Nat → Int
  /-- Result of `SCCompressSequenceFrame` (or of `SCCompressSequenceFrameAsync`)
  in iteration `j`. -/
  compressSequenceFrame : Nat → Int
  /-- Asynchronous build: the invocations `(theResult, theFlags)` of the completion
  procedure made for the frame of iteration `j`, during the request itself
  (`p = 0`) and during the `p`-th pass of the waiting loop (`p > 0`). -/
  completions : Nat → Nat → List (Int × Int)
  /-- Result of `AddMediaSample` in iteration `j`. -/
  addMediaSample : Nat → Int
  /-- Result of `EndMediaEdits`. -/
  endMediaEdits : Int
  /-- Value of `GetMediaDuration(myDstMedia)`, given the durations of the samples
  added to the media so far. -/
  getMediaDuration : List Int → Int
  /-- Result of `AddMovieResource`. -/
  addMovieResource : Int

/-! ## Single-precision floating point -/

/-- The integer part of the binary logarithm of `n ≥ 1`, by repeated halving; `fuel`
bounds the number of halvings. -/
def binaryLogFuel : Nat → Nat → Nat
  | 0, _ => 0
  | fuel + 1, n => if n < 2 then 0 else binaryLogFuel fuel (n / 2) + 1

/-- The integer part of the binary logarithm of `n ≥ 1`. -/
def binaryLog (n : Nat) : Nat := binaryLogFuel n n

/-- The integer nearest to `n / d`; of two equally near integers, the even one. -/
def roundHalfEven (n d : Nat) : Nat :=
  if 2 * (n % d) < d then n / d
  else if d < 2 * (n % d) then n / d + 1
  else if (n / d) % 2 = 0 then n / d else n / d + 1

/-- Numerator and denominator of `n / (d * 2 ^ e)`. -/
def scaleBy (n d : Nat) (e : Int) : Nat × Nat :=
  if 0 ≤ e then (n, d * 2 ^ e.toNat) else (n * 2 ^ (-e).toNat, d)

/-- The exponent `e` of the unit in the last place of `n / d`, for `n, d ≥ 1`:
`2 ^ 23 ≤ n / d / 2 ^ e < 2 ^ 24`, so that a significand of 24 bits is left. -/
def floatExponent (n d : Nat) : Int :=
  let k : Int := (binaryLog n : Int) - (binaryLog d : Int)
  if (scaleBy n d k).2 ≤ (scaleBy n d k).1 then k - 23 else k - 24

/-- A value of the C type `float` (IEEE 754 single precision): `significand * 2 ^
exponent`, the significand having at most 24 bits.  The exponent is not bounded: the
operands of lines 456–458 are `long` values, so that the conversions, the product
and the quotients computed there lie between `2 ^ (-47)` and `2 ^ 62` in magnitude
when they are not zero, well inside the range of a `float` (no overflow, no
subnormal value). -/
structure Single where
  significand : Int
  exponent : Int
deriving DecidableEq

/-- The rational number a `float` stands for. -/
def Single.toRat (x : Single) : ℚ := (x.significand : ℚ) * (2 : ℚ) ^ x.exponent

/-- Rounding of the rational `n / d` (`d ≥ 1`) to the nearest `float`, a tie going
to the even significand (the default rounding mode). -/
def roundToSingle (n : Int) (d : Nat) : Single :=
  if n = 0 then ⟨0, 0⟩
  else
    let e := floatExponent n.natAbs d
    let m : Int := roundHalfEven (scaleBy n.natAbs d e).1 (scaleBy n.natAbs d e).2
    ⟨if n < 0 then -m else m, e⟩

/-- Conversion of a `long` to `float`: the cast `(float)n`, and the conversion of an
integer operand of a floating operation. -/
def Single.ofLong (n : Int) : Single := roundToSingle n 1

/-- The product of two `float`s, rounded to `float`. -/
def Single.mul (x y : Single) : Single :=
  let r := roundToSingle (x.significand * y.significand) 1
  ⟨r.significand, r.exponent + x.exponent + y.exponent⟩

/-- The quotient of two `float`s, the divisor not zero, rounded to `float`. -/
def Single.div (x y : Single) : Single :=
  let r := roundToSingle (if y.significand < 0 then -x.significand else x.significand)
    y.significand.natAbs
  ⟨r.significand, r.exponent + x.exponent - y.exponent⟩

/-- Conversion of a `float` to `long`: the fractional part is discarded; the
conversion is undefined (`none`) when the result does not fit 32 bits. -/
def Single.toLong (x : Single) : Option Int :=
  let v := if 0 ≤ x.exponent then x.significand * ((2 ^ x.exponent.toNat : Nat) : Int)
           else Int.tdiv x.significand ((2 ^ (-x.exponent).toNat : Nat) : Int)
  if -2147483648 ≤ v ∧ v ≤ 2147483647 then some v else none

/-- The number `y` is `x` rounded to `float` in the sense of IEEE 754 (rounding to
nearest, ties to even): `y` has a significand of at most 24 bits, no number with
such a significand is nearer to `x`, and if another one is as near, the significand
of `y` is even.  (A significand of `2 ^ 24` stands for `2 ^ 23` at the next
exponent.) -/
def IsRoundedSingle (y x : ℚ) : Prop :=
  (∃ m e : Int, |m| ≤ 2 ^ 24 ∧ y = (m : ℚ) * (2 : ℚ) ^ e) ∧
  (∀ m j : Int, |m| ≤ 2 ^ 24 → |y - x| ≤ |(m : ℚ) * (2 : ℚ) ^ j - x|) ∧
  ∀ m j : Int, |m| ≤ 2 ^ 24 → (m : ℚ) * (2 : ℚ) ^ j ≠ y →
    |(m : ℚ) * (2 : ℚ) ^ j - x| = |y - x| →
    ∃ m0 e0 : Int, 2 ^ 23 ≤ |m0| ∧ |m0| ≤ 2 ^ 24 ∧ m0 % 2 = 0 ∧
      y = (m0 : ℚ) * (2 : ℚ) ^ e0

/-! ## Arithmetic of the sample planner -/

/-- Lines 456 and 458, the floating expression that is converted to `long`:
`float myFloat = (float)myDuration * myTimeSettings.frameRate;` and then
`myFloat / myTimeScale / 65536` (`myTimeScale` not zero).  The operands are `long`
values; each is converted to `float`, and the product and both quotients are
rounded to `float`, the type of the expression.  (The product is stored in the
`float` variable `myFloat`, so it is rounded to `float` also by a compiler that
keeps intermediate results in wider registers.) -/
def resampleFloat (myDuration frameRate myTimeScale : Int) : Single :=
  let myFloat := Single.mul (Single.ofLong myDuration) (Single.ofLong frameRate)
  Single.div (Single.div myFloat (Single.ofLong myTimeScale)) (Single.ofLong 65536)

/-- Lines 453–461, the frame count when the movie is resampled:
`myFloat = (float)myDuration * frameRate; myNumFrames = myFloat / myTimeScale / 65536;
if (myNumFrames == 0) myNumFrames = 1;`.
The floating expression is computed in single precision (`resampleFloat`);
converting it to `long` discards the fractional part.  The conversion is undefined
(`none`) when the value does not fit a `long`, and when the time scale is zero,
which makes the quotient infinite or not a number. -/
def resampleNumFrames (myDuration frameRate myTimeScale : Int) : Option Int :=
  if myTimeScale = 0 then none
  else
    match Single.toLong (resampleFloat myDuration frameRate myTimeScale) with
    | none => none
    | some myNumFrames => some (if myNumFrames = 0 then 1 else myNumFrames)

/-- Lines 572–573, resampling: `myCurMovieTime = myFrameNum * mySrcMovieDuration /
(myNumFrames - 1); myDuration = mySrcMovieDuration / myNumFrames;`.
The result is the pair (sample time, duration), or `none` when a divisor is zero. -/
def resamplePlan (myFrameNum mySrcMovieDuration myNumFrames : Int) : Option (Int × Int) :=
  if myNumFrames - 1 = 0 then none
  else if myNumFrames = 0 then none
  else some (Int.tdiv (wrapLong (myFrameNum * mySrcMovieDuration)) (myNumFrames - 1),
             Int.tdiv mySrcMovieDuration myNumFrames)

/-- Line 597: `myDuration * 1000 / GetMovieTimeScale(mySrcMovie)`, or `none` when the
time scale is zero. -/
def frameDurationMs (myDuration myTimeScale : Int) : Option Int :=
  if myTimeScale = 0 then none
  else some (Int.tdiv (wrapLong (myDuration * 1000)) myTimeScale)

/-! ## The completion procedure and the waiting loop -/

/-- Lines 835–844, `QTCmpr_CompletionProc`.  `theRefCon` is `true` when the reference
constant is not `NULL`; `target` is the value of the `OSErr` variable it addresses.
The result is the value of that variable when the procedure returns. -/
def QTCmpr_CompletionProc (theResult theFlags : Int) (theRefCon : Bool) (target : Int) : Int :=
  if Int.land theFlags codecCompletionDest ≠ 0 then
    if theRefCon then theResult else target
  else target

/-- The completion procedure run on a list of invocations, all with the reference
constant `&myICMComplProcErr` installed at line 620. -/
def deliver (calls : List (Int × Int)) (myICMComplProcErr : Int) : Int :=
  calls.foldl (fun v c => QTCmpr_CompletionProc c.1 c.2 true v) myICMComplProcErr

/-- Lines 631–636: `while (myICMComplProcErr == kAsyncDefaultValue) { WaitNextEvent(...);
SCAsyncIdle(myComponent); }` for the frame of iteration `j`, entered after `p`
passes.  The result is the calls made and the final value of `myICMComplProcErr`
(`none` when the loop is still waiting after `fuel` passes). -/
def asyncWait (cfg : Config) (w : World) (j : Nat) :
    Nat → Nat → Int → List Call × Option Int
  | 0, _, v => if v = cfg.kAsyncDefaultValue then ([], none) else ([], some v)
  | fuel + 1, p, v =>
    if v = cfg.kAsyncDefaultValue then
      let r := asyncWait cfg w j fuel (p + 1) (deliver (w.completions j (p + 1)) v)
      (Call.WaitNextEvent :: Call.SCAsyncIdle :: r.1, r.2)
    else ([], some v)

/-! ## The frame loop of `QTCmpr_CompressSequence` -/

/-- How one iteration of the frame loop, or the loop as a whole, ends. -/
inductive StepExit
  /-- The iteration reached its end (for the loop: the loop condition became
  false); `myCurMovieTime` is the value of that variable. -/
  | next (myCurMovieTime : Int)
  /-- The statement `goto bail` was executed. -/
  | bail
  /-- The run stopped inside the loop. -/
  | stopped (s : Status)
deriving DecidableEq, Repr

/-- Calls of a piece of the loop, whether `myICMComplProcRec.completionProc` is
allocated after it, and how it ended. -/
structure Step where
  trace : List Call
  completionProc : Bool
  exit : StepExit
deriving Repr

/-- The step `s` preceded by the calls `pre`. -/
def Step.after (pre : List Call) (s : Step) : Step :=
  { s with trace := pre ++ s.trace }

/-- Lines 570–586: sample time and duration of the frame, and the calls made to get
them.  The second component is `none` when the resampling arithmetic divides by zero. -/
def planFrame (w : World) (myNumFrames myFrameNum myCurMovieTime : Int) :
    List Call × Option (Int × Int) :=
  if w.frameRate ≠ 0 then
    ([], resamplePlan myFrameNum w.movieDuration myNumFrames)
  else
    ([Call.GetMovieNextInterestingTime (decide (myFrameNum = 0)) myCurMovieTime],
     some (w.nextInterestingTime (decide (myFrameNum = 0)) myCurMovieTime))

/-- Lines 613–642 in iteration `j`: compress the frame (synchronously, or by an
asynchronous request followed by the waiting loop) and add the sample to the media. -/
def compressAndAdd (cfg : Config) (w : World) (waitFuel j : Nat) (time myDuration : Int)
    (completionProc : Bool) : Step :=
  let add : List Call := [Call.AddMediaSample myDuration (w.addMediaSample j)]
  let addExit : StepExit := if w.addMediaSample j ≠ noErr then .bail else .next time
  if cfg.useAsyncCompression = false then
    if w.compressSequenceFrame j ≠ noErr then
      ⟨[Call.SCCompressSequenceFrame (w.compressSequenceFrame j)], completionProc, .bail⟩
    else
      ⟨Call.SCCompressSequenceFrame (w.compressSequenceFrame j) :: add, completionProc, addExit⟩
  else
    let request : List Call :=
      (if completionProc then [] else [Call.NewICMCompletionProc]) ++
        [Call.SCCompressSequenceFrameAsync (w.compressSequenceFrame j)]
    if w.compressSequenceFrame j ≠ noErr then ⟨request, true, .bail⟩
    else
      let wait := asyncWait cfg w j waitFuel 0 (deliver (w.completions j 0) cfg.kAsyncDefaultValue)
      match wait.2 with
      | none => ⟨request ++ wait.1, true, .stopped .outOfFuel⟩
      | some _ => ⟨request ++ wait.1 ++ add, true, addExit⟩

/-- Lines 559–642: the body of the frame loop in iteration `j`. -/
def frameStep (cfg : Config) (w : World) (myNumFrames : Int) (waitFuel j : Nat)
    (myFrameNum myCurMovieTime : Int) (completionProc : Bool) : Step :=
  let plan := planFrame w myNumFrames myFrameNum myCurMovieTime
  match plan.2 with
  | none => ⟨plan.1, completionProc, .stopped .divideByZero⟩
  | some (time, myDuration) =>
    let seek : List Call := plan.1 ++
      [Call.SetMovieTimeValue time, Call.MoviesTask, Call.MoviesTask, Call.MoviesTask,
       Call.SCGetInfo .scDataRateSettingsType (some (w.getDataRateSettings j))]
    if w.getDataRateSettings j = 0 then
      match frameDurationMs myDuration w.movieTimeScale with
      | none => ⟨seek ++ [Call.GetMovieTimeScale], completionProc, .stopped .divideByZero⟩
      | some ms =>
        (compressAndAdd cfg w waitFuel j time myDuration completionProc).after
          (seek ++ [Call.GetMovieTimeScale, Call.SCSetInfo .scDataRateSettingsType (some ms)])
    else
      (compressAndAdd cfg w waitFuel j time myDuration completionProc).after seek

/-- Lines 558–643: `for (myFrameNum = 0; myFrameNum < myNumFrames; myFrameNum++) ...`,
entered at iteration `j` with the given values of the `short` counter `myFrameNum`
and of `myCurMovieTime`.  At most `fuel` iterations are run. -/
def frameLoop (cfg : Config) (w : World) (myNumFrames : Int) (waitFuel : Nat) :
    Nat → Nat → Int → Int → Bool → Step
  | 0, _, myFrameNum, myCurMovieTime, completionProc =>
    if myFrameNum < myNumFrames then ⟨[], completionProc, .stopped .outOfFuel⟩
    else ⟨[], completionProc, .next myCurMovieTime⟩
  | fuel + 1, j, myFrameNum, myCurMovieTime, completionProc =>
    if myFrameNum < myNumFrames then
      let s := frameStep cfg w myNumFrames waitFuel j myFrameNum myCurMovieTime completionProc
      match s.exit with
      | .next time =>
        (frameLoop cfg w myNumFrames waitFuel fuel (j + 1) (wrapShort (myFrameNum + 1)) time
          s.completionProc).after s.trace
      | _ => s
    else ⟨[], completionProc, .next myCurMovieTime⟩

/-! ## Before and after the loop -/

/-- The durations of the samples that `AddMediaSample` added without error, in order. -/
def addedDurations : List Call → List Int
  | [] => []
  | Call.AddMediaSample d r :: t => if r = noErr then d :: addedDurations t else addedDurations t
  | _ :: t => addedDurations t

/-- Lines 708–735, `QTCmpr_InstallExtendedProcs`. -/
def QTCmpr_InstallExtendedProcs (cfg : Config) : List Call × ProcStruct :=
  ([Call.QTUtils_ConvertCToPascalString, Call.NewSCModalFilterUPP] ++
     (if cfg.useCustomButton then [Call.NewSCModalHookUPP, Call.BlockMove] else []) ++
     [Call.SCSetInfo .scExtendedProcsType none, Call.free],
   ⟨true, cfg.useCustomButton⟩)

/-- Lines 745–762, `QTCmpr_RemoveExtendedProcs`, run on the global `g`. -/
def QTCmpr_RemoveExtendedProcs (g : ProcStruct) : List Call × ProcStruct :=
  ([Call.SCSetInfo .scExtendedProcsType (some 0)] ++
     (if g.filterProc then [Call.DisposeSCModalFilterUPP] else []) ++
     (if g.hookProc then [Call.DisposeSCModalHookUPP] else []),
   ⟨false, false⟩)

/-- The local variables of `QTCmpr_CompressSequence` that the code after the label
`bail` reads: three "is not `NULL`" flags and the saved movie time. -/
structure Locals where
  myComponent : Bool
  mySrcMovie : Bool
  myImageWorld : Bool
  myOrigMovieTime : Int
deriving DecidableEq, Repr

/-- Lines 671–697: the code after the label `bail`. -/
def bail (cfg : Config) (l : Locals) (completionProc : Bool) : List Call :=
  (if l.myComponent then [Call.CloseComponent] else []) ++
  (if l.mySrcMovie then [Call.SetMovieGWorld, Call.SetMovieTimeValue l.myOrigMovieTime] else []) ++
  [Call.SetGWorld] ++
  (if l.myImageWorld then [Call.DisposeGWorld] else []) ++
  (if cfg.useAsyncCompression && completionProc then [Call.DisposeICMCompletionUPP] else []) ++
  [Call.free, Call.free]

/-- Lines 645–669: what follows a loop that ran to its end, up to the label `bail`;
`loopTrace` is the calls the loop made. -/
def finish (w : World) (loopTrace : List Call) : List Call :=
  let t1 : List Call := [Call.SCCompressSequenceEnd, Call.EndMediaEdits w.endMediaEdits]
  if w.endMediaEdits ≠ noErr then t1
  else
    let t2 := t1 ++ [Call.GetMediaDuration,
      Call.InsertMediaIntoTrack (w.getMediaDuration (addedDurations loopTrace)),
      Call.AddMovieResource w.addMovieResource]
    if w.addMovieResource ≠ noErr then t2 else t2 ++ [Call.CloseMovieFile]

/-- Where the code before the loop leaves the function. -/
inductive SetupExit
  /-- The statement `goto bail` was executed. -/
  | bail
  /-- The frame count of a resampled movie was computed with a zero time scale, or
  does not fit a `long`. -/
  | undefinedConversion
  /-- The frame loop is entered with this value of `myNumFrames`. -/
  | loop (myNumFrames : Int)
deriving DecidableEq, Repr

/-- Calls, local variables and global `gProcStruct` when the code before the loop
is left. -/
structure Setup where
  trace : List Call
  locals : Locals
  gProcStruct : ProcStruct
  exit : SetupExit
deriving Repr

/-- The outcome `s` preceded by the calls `pre`. -/
def Setup.after (pre : List Call) (s : Setup) : Setup :=
  { s with trace := pre ++ s.trace }

/-- A straight-line piece of code that makes the calls `calls` and ends with a test:
when `fails` holds the code executes `goto bail`, with the local variables `l` and
the global `g`; otherwise it goes on with `rest`. -/
def guard (calls : List Call) (fails : Prop) [Decidable fails] (l : Locals) (g : ProcStruct)
    (rest : Setup) : Setup :=
  if fails then ⟨calls, l, g, .bail⟩ else rest.after calls

/-- The frame count with which the loop is entered (lines 374 and 453–461): the
resampled count when the user entered a frame rate, the count of the track
otherwise; `none` when the resampled count is undefined. -/
def frameCountOf (w : World) : Option Int :=
  if w.frameRate ≠ 0 then resampleNumFrames w.movieDuration w.frameRate w.movieTimeScale
  else some w.frameCount

/-- The global `gProcStruct` after line 414. -/
def procsAfterInstall (cfg : Config) (w : World) : ProcStruct :=
  if w.gUseExtendedProcs then (QTCmpr_InstallExtendedProcs cfg).2 else w.gProcStruct

/-- Lines 463–555 of `QTCmpr_CompressSequence`: from the file prompt to the loop,
which is entered with `myNumFrames`. -/
def createTarget (cfg : Config) (w : World) (myNumFrames : Int) : Setup :=
  let l4 : Locals := ⟨true, true, true, w.movieTime⟩
  let g1 := procsAfterInstall cfg w
  guard [Call.QTFrame_PutFile w.fileSelected] (w.fileSelected = false) l4 g1 <|
  guard (if w.isReplacing then [Call.DeleteMovieFile w.deleteMovieFile] else [])
    (w.isReplacing = true ∧ w.deleteMovieFile ≠ noErr) l4 g1 <|
  guard [Call.CreateMovieFile w.createMovieFile] (w.createMovieFile ≠ noErr) l4 g1 <|
  guard [Call.NewMovieTrack] (w.newMovieTrack = false) l4 g1 <|
  guard [Call.GetMovieTimeScale, Call.NewTrackMedia] (w.newTrackMedia = false) l4 g1 <|
  guard [Call.CopyMovieSettings, Call.SetIdentityMatrix, Call.SetMovieMatrix,
      Call.SetMovieClipRgn, Call.SetMoviePlayHints, Call.NewHandleClear]
    (w.newHandleClear = false) l4 g1 <|
  guard [Call.BeginMediaEdits w.beginMediaEdits] (w.beginMediaEdits ≠ noErr) l4 g1 <|
  guard [Call.SCCompressSequenceBegin w.compressSequenceBegin]
    (w.compressSequenceBegin ≠ noErr) l4 g1 <|
  ⟨(if cfg.useAsyncCompression then [Call.SCSetInfo .scCodecFlagsType none] else []) ++
     [Call.SetGWorld, Call.EraseRect, Call.GetGWorldDevice, Call.SetMovieGWorld,
      Call.GetMovieDuration],
   l4, g1, .loop myNumFrames⟩

/-- The calls of lines 433–461: the temporal settings are read back and, when a frame
rate was entered, the duration and time scale of the movie are fetched. -/
def countFramesCalls (w : World) : List Call :=
  [Call.SCGetInfo .scTemporalSettingsType none] ++
    (if w.frameRate ≠ 0 then [Call.GetMovieDuration, Call.GetMovieTimeScale] else [])

/-- Lines 433–461 of `QTCmpr_CompressSequence`: the temporal settings are read back
and the frame count is adjusted; then the target movie is created. -/
def countFrames (cfg : Config) (w : World) : Setup :=
  match frameCountOf w with
  | none =>
    ⟨countFramesCalls w, ⟨true, true, true, w.movieTime⟩, procsAfterInstall cfg w,
     .undefinedConversion⟩
  | some myNumFrames => (createTarget cfg w myNumFrames).after (countFramesCalls w)

/-- Lines 296–555 of `QTCmpr_CompressSequence`: everything before the frame loop. -/
def setup (cfg : Config) (w : World) : Setup :=
  let g0 := w.gProcStruct
  let g1 := procsAfterInstall cfg w
  let l0 : Locals := ⟨false, false, false, 0⟩
  let l1 : Locals := ⟨false, true, false, 0⟩
  let l2 : Locals := ⟨false, true, false, w.movieTime⟩
  let l3 : Locals := ⟨true, true, false, w.movieTime⟩
  let l4 : Locals := ⟨true, true, true, w.movieTime⟩
  guard [Call.QTUtils_ConvertCToPascalString, Call.QTUtils_ConvertCToPascalString]
    (w.theWindowObject = false) l0 g0 <|
  guard [] (w.fMovie = false) l0 g0 <|
  guard [Call.GetMovieIndTrackType] (w.videoTrack = false) l1 g0 <|
  guard [Call.SetMovieRate, Call.GetMovieTime, Call.OpenDefaultComponent]
    (w.component = false) l2 g0 <|
  guard [Call.SCGetInfo .scPreferenceFlagsType none, Call.SCSetInfo .scPreferenceFlagsType none,
      Call.SCGetInfo .scPreferenceFlagsType none, Call.SCSetInfo .scPreferenceFlagsType none,
      Call.QTUtils_GetFrameCount, Call.GetMoviePosterPict]
    (w.posterPict = false) l3 g0 <|
  guard [Call.GetMovieBox, Call.NewGWorld w.newGWorld] (w.newGWorld ≠ noErr) l3 g0 <|
  guard [Call.GetGWorldPixMap, Call.LockPixels w.lockPixels] (w.lockPixels = false) l4 g0 <|
  guard ([Call.GetGWorld, Call.SetGWorld, Call.EraseRect, Call.DrawPicture, Call.KillPicture,
      Call.SetGWorld, Call.SCSetTestImagePixMap] ++
      (if w.gUseExtendedProcs then (QTCmpr_InstallExtendedProcs cfg).1 else []) ++
      [Call.SCDefaultPixMapSettings,
       Call.SCGetInfo .scTemporalSettingsType (some w.getTemporalSettings)])
    (w.getTemporalSettings ≠ noErr) l4 g1 <|
  guard [Call.SCSetInfo .scTemporalSettingsType (some 0),
      Call.SCRequestSequenceSettings w.requestSequenceSettings]
    (w.requestSequenceSettings = scUserCancelled) l4 g1 <|
  countFrames cfg w

/-- Lines 276–698, `QTCmpr_CompressSequence`: the code before the loop, the frame
loop (at most `fuel` iterations, each waiting at most `fuel` passes for an
asynchronous completion), the code after it, and the code after the label `bail`. -/
def QTCmpr_CompressSequence (cfg : Config) (w : World) (fuel : Nat) : Run :=
  let s := setup cfg w
  match s.exit with
  | .bail => ⟨s.trace ++ bail cfg s.locals false, .returned, s.gProcStruct⟩
  | .undefinedConversion => ⟨s.trace, .undefinedConversion, s.gProcStruct⟩
  | .loop myNumFrames =>
    let r := frameLoop cfg w myNumFrames fuel fuel 0 0 0 false
    match r.exit with
    | .stopped st => ⟨s.trace ++ r.trace, st, s.gProcStruct⟩
    | .bail =>
      ⟨s.trace ++ r.trace ++ bail cfg s.locals r.completionProc, .returned, s.gProcStruct⟩
    | .next _ =>
      ⟨s.trace ++ r.trace ++ finish w r.trace ++ bail cfg s.locals r.completionProc,
       .returned, s.gProcStruct⟩

/-! ## Observations on a trace -/

/-- The durations passed to `AddMediaSample`, in order, whatever the call returned. -/
def sampleDurations : List Call → List Int
  | [] => []
  | Call.AddMediaSample d _ :: t => d :: sampleDurations t
  | _ :: t => sampleDurations t

/-- The result codes of the compress requests (`SCCompressSequenceFrame` or
`SCCompressSequenceFrameAsync`), in order. -/
def compressResults : List Call → List Int
  | [] => []
  | Call.SCCompressSequenceFrame r :: t => r :: compressResults t
  | Call.SCCompressSequenceFrameAsync r :: t => r :: compressResults t
  | _ :: t => compressResults t

/-- The times passed to `SetMovieTimeValue`, in order. -/
def seekTimes : List Call → List Int
  | [] => []
  | Call.SetMovieTimeValue time :: t => time :: seekTimes t
  | _ :: t => seekTimes t

/-- A build with synchronous compression and no custom button. -/
def syncBuild : Config := ⟨false, false, 50⟩

/-- A build with asynchronous compression and no custom button. -/
def asyncBuild : Config := ⟨true, false, 50⟩

/-- A world in which every call succeeds: the user leaves the frame rate blank, the
track has 3 frames, each 100 units long, of a movie of duration 300 and time scale
600.  In an asynchronous build each completion arrives during the second pass of
the waiting loop, with result `noErr`. -/
def okWorld : World where
  gUseExtendedProcs := true
  gProcStruct := ⟨false, false⟩
  theWindowObject := true
  fMovie := true
  videoTrack := true
  movieTime := 0
  component := true
  frameCount := 3
  posterPict := true
  newGWorld := 0
  lockPixels := true
  getTemporalSettings := 0
  requestSequenceSettings := 0
  frameRate := 0
  movieDuration := 300
  movieTimeScale := 600
  fileSelected := true
  isReplacing := false
  deleteMovieFile := 0
  createMovieFile := 0
  newMovieTrack := true
  newTrackMedia := true
  newHandleClear := true
  beginMediaEdits := 0
  compressSequenceBegin := 0
  nextInterestingTime := fun edgeOK t => if edgeOK then (t, 100) else (t + 100, 100)
  getDataRateSettings := fun _ => 0
  compressSequenceFrame := fun _ => 0
  completions := fun _ p => if p = 2 then [(0, 2)] else []
  addMediaSample := fun _ => 0
  endMediaEdits := 0
  getMediaDuration := List.sum
  addMovieResource := 0

/-- The world `okWorld` with a movie of the given duration and time scale, and the
given frame rate (16.16 fixed point) entered in the dialog. -/
def resampleWorld (duration timeScale frameRate : Int) : World :=
  { okWorld with movieDuration := duration, movieTimeScale := timeScale, frameRate := frameRate }

/-- The routines called by the code before the frame loop (lines 296–555). -/
def setupRoutines : List Routine :=
  [.QTUtils_ConvertCToPascalString, .GetMovieIndTrackType, .SetMovieRate, .GetMovieTime,
   .OpenDefaultComponent, .SCGetInfo, .SCSetInfo, .QTUtils_GetFrameCount, .GetMoviePosterPict,
   .GetMovieBox, .NewGWorld, .GetGWorldPixMap, .LockPixels, .GetGWorld, .SetGWorld, .EraseRect,
   .DrawPicture, .KillPicture, .SCSetTestImagePixMap, .NewSCModalFilterUPP, .NewSCModalHookUPP,
   .BlockMove, .free, .SCDefaultPixMapSettings, .SCRequestSequenceSettings, .GetMovieDuration,
   .GetMovieTimeScale, .QTFrame_PutFile, .DeleteMovieFile, .CreateMovieFile, .NewMovieTrack,
   .NewTrackMedia, .CopyMovieSettings, .SetIdentityMatrix, .SetMovieMatrix, .SetMovieClipRgn,
   .SetMoviePlayHints, .NewHandleClear, .BeginMediaEdits, .SCCompressSequenceBegin,
   .GetGWorldDevice, .SetMovieGWorld]

/-- The routines called by the frame loop (lines 558–643). -/
def loopRoutines : List Routine :=
  [.GetMovieNextInterestingTime, .SetMovieTimeValue, .MoviesTask, .SCGetInfo,
   .GetMovieTimeScale, .SCSetInfo, .SCCompressSequenceFrame, .NewICMCompletionProc,
   .SCCompressSequenceFrameAsync, .WaitNextEvent, .SCAsyncIdle, .AddMediaSample]

/-- The routines called between the frame loop and the label `bail` (lines 645–669). -/
def finishRoutines : List Routine :=
  [.SCCompressSequenceEnd, .EndMediaEdits, .GetMediaDuration, .InsertMediaIntoTrack,
   .AddMovieResource, .CloseMovieFile]

/-- The routines called after the label `bail` (lines 671–697). -/
def bailRoutines : List Routine :=
  [.CloseComponent, .SetMovieGWorld, .SetMovieTimeValue, .SetGWorld, .DisposeGWorld,
   .DisposeICMCompletionUPP, .free]

/-- The trace `t` calls only routines of the list `S`. -/
def callsOnly (S : List Routine) (t : List Call) : Prop := ∀ r ∈ routines t, r ∈ S

/-- The routines called by the loop body before it compresses the frame (lines 570–599). -/
def planRoutines : List Routine :=
  [.GetMovieNextInterestingTime, .SetMovieTimeValue, .MoviesTask, .SCGetInfo,
   .GetMovieTimeScale, .SCSetInfo]

/-- The world `okWorld` with a video track that has no frame. -/
def emptyTrackWorld : World := { okWorld with frameCount := 0 }

/-! ## `QTCmpr_CompressImage` -/

/-- Everything `QTCmpr_CompressImage` learns from outside.  An importer, a GWorld or
a handle is taken to be not `NULL` exactly when the call that returns it succeeds. -/
structure ImageWorld where
  /-- The global `gUseExtendedProcs`. -/
  gUseExtendedProcs : Bool
  /-- The global `gProcStruct` when the function is entered. -/
  gProcStruct : ProcStruct
  /-- Whether `theWindowObject` is not `NULL`. -/
  theWindowObject : Bool
  /-- Result of `GetGraphicsImporterForFile`. -/
  getGraphicsImporter : Int
  /-- Result of `GraphicsImportGetNaturalBounds`. -/
  naturalBounds : Int
  /-- Result of `QTNewGWorld`. -/
  qtNewGWorld : Int
  /-- Value of `LockPixels(myPixMap)`. -/
  lockPixels : Bool
  /-- Whether `OpenDefaultComponent` returns an instance. -/
  component : Bool
  /-- Result of `SCRequestImageSettings`. -/
  requestImageSettings : Int
  /-- Result of `SCCompressImage`. -/
  compressImage : Int
  /-- Whether `myDesc` is not `NULL` after `SCCompressImage`. -/
  myDesc : Bool
  /-- Whether `myHandle` is not `NULL` after `SCCompressImage`. -/
  myHandle : Bool

/-- The local variables of `QTCmpr_CompressImage` that the code after its label
`bail` reads: "is not `NULL`" flags, and whether the pixels are locked. -/
structure ImageLocals where
  myImporter : Bool
  myComponent : Bool
  myImageWorld : Bool
  myPixMap : Bool
  pixelsLocked : Bool
  myDesc : Bool
  myHandle : Bool
deriving DecidableEq, Repr

/-- Lines 179–200: the code after the label `bail` of `QTCmpr_CompressImage`, run
with the global `g`; the result is the calls made and the global afterwards. -/
def imageBail (w : ImageWorld) (g : ProcStruct) (l : ImageLocals) : List Call × ProcStruct :=
  let remove := if w.gUseExtendedProcs then QTCmpr_RemoveExtendedProcs g else ([], g)
  (remove.1 ++
    (if l.myPixMap then
      Call.GetPixelsState :: (if l.pixelsLocked then [Call.UnlockPixels] else [])
     else []) ++
    (if l.myImporter then [Call.CloseComponent] else []) ++
    (if l.myComponent then [Call.CloseComponent] else []) ++
    (if l.myDesc then [Call.DisposeHandle] else []) ++
    (if l.myHandle then [Call.DisposeHandle] else []) ++
    (if l.myImageWorld then [Call.DisposeGWorld] else []),
   remove.2)

/-- The calls `t` followed by the code after the label `bail` of
`QTCmpr_CompressImage`. -/
def imageDone (w : ImageWorld) (t : List Call) (g : ProcStruct) (l : ImageLocals) : Run :=
  ⟨t ++ (imageBail w g l).1, .returned, (imageBail w g l).2⟩

/-- Lines 82–201, `QTCmpr_CompressImage`. -/
def QTCmpr_CompressImage (cfg : Config) (w : ImageWorld) : Run :=
  if w.theWindowObject = false then ⟨[], .returned, w.gProcStruct⟩ else
  let g0 := w.gProcStruct
  let l0 : ImageLocals := ⟨false, false, false, false, false, false, false⟩
  let t1 : List Call := [Call.GetGraphicsImporterForFile w.getGraphicsImporter]
  if w.getGraphicsImporter ≠ noErr then imageDone w t1 g0 l0 else
  let l1 : ImageLocals := ⟨true, false, false, false, false, false, false⟩
  let t2 := t1 ++ [Call.GraphicsImportGetNaturalBounds w.naturalBounds]
  if w.naturalBounds ≠ noErr then imageDone w t2 g0 l1 else
  let t3 := t2 ++ [Call.QTNewGWorld w.qtNewGWorld]
  if w.qtNewGWorld ≠ noErr then imageDone w t3 g0 l1 else
  let l2 : ImageLocals := ⟨true, false, true, true, w.lockPixels, false, false⟩
  let t4 := t3 ++ [Call.GetGWorldPixMap, Call.LockPixels w.lockPixels]
  if w.lockPixels = false then imageDone w t4 g0 l2 else
  let t5 := t4 ++ [Call.GraphicsImportSetGWorld, Call.GraphicsImportDraw, Call.OpenDefaultComponent]
  if w.component = false then imageDone w t5 g0 l2 else
  let l3 : ImageLocals := ⟨true, true, true, true, w.lockPixels, false, false⟩
  let install := if w.gUseExtendedProcs then QTCmpr_InstallExtendedProcs cfg else ([], g0)
  let t6 := t5 ++ [Call.SCSetTestImagePixMap] ++ install.1 ++
    [Call.SCRequestImageSettings w.requestImageSettings]
  if w.requestImageSettings = scUserCancelled then imageDone w t6 install.2 l3 else
  let l4 : ImageLocals := ⟨true, true, true, true, w.lockPixels, w.myDesc, w.myHandle⟩
  let t7 := t6 ++ [Call.SCCompressImage w.compressImage]
  if w.compressImage ≠ noErr then imageDone w t7 install.2 l4 else
  imageDone w (t7 ++ [Call.QTCmpr_PromptUserForDiskFileAndSaveCompressed]) install.2 l4

/-- A world of `QTCmpr_CompressImage` in which every call succeeds. -/
def okImageWorld : ImageWorld where
  gUseExtendedProcs := true
  gProcStruct := ⟨false, false⟩
  theWindowObject := true
  getGraphicsImporter := 0
  naturalBounds := 0
  qtNewGWorld := 0
  lockPixels := true
  component := true
  requestImageSettings := 0
  compressImage := 0
  myDesc := true
  myHandle := true

/-- The world `okWorld` in which the compress request of iteration 1 (the second
frame) returns the error -8960. -/
def compressFailWorld : World :=
  { okWorld with compressSequenceFrame := fun j => if j = 1 then -8960 else 0 }

/-- The world `okWorld` in which `AddMediaSample` returns the error -2014 for the
first frame. -/
def addFailWorld : World :=
  { okWorld with addMediaSample := fun j => if j = 0 then -2014 else 0 }

/-- The world `okWorld` in which `SCCompressSequenceBegin` returns the error -8960. -/
def beginFailWorld : World := { okWorld with compressSequenceBegin := -8960 }

/-- The world `okWorld` in which the user cancels the settings dialog. -/
def cancelWorld : World := { okWorld with requestSequenceSettings := scUserCancelled }

/-- The world `okImageWorld` in which the user cancels the settings dialog. -/
def cancelImageWorld : ImageWorld :=
  { okImageWorld with requestImageSettings := scUserCancelled }

/-- The world `okWorld` with 2 frames, in which the completion procedure delivers the
error -8960 for the first frame (during the second pass of the waiting loop, with
the flag `codecCompletionDest`), and `noErr` for the second. -/
def asyncErrorWorld : World :=
  { okWorld with
    frameCount := 2,
    completions := fun j p => if p = 2 then [(if j = 0 then -8960 else 0, 2)] else [] }

/-- What the function reads of an `ImageDescription` record, and the bytes of the
record itself (the image-description metadata). -/
structure ImageDescription where
  /-- The field `cType`, the compressor type. -/
  cType : Nat
  /-- The field `dataSize`, the byte count of the compressed data. -/
  dataSize : Int
  /-- The bytes of the record. -/
  bytes : List Nat
deriving DecidableEq, Repr

/-- A file of the File Manager, as far as its data fork is concerned: its type, the
bytes up to its logical end-of-file, the mark of the access path, and whether the
access path is open. -/
structure DataFile where
  fileType : Nat
  bytes : List Nat
  mark : Nat
  isOpen : Bool
deriving DecidableEq, Repr

/-- Effect of a successful `FSpCreate`: a new file of the given type, with an empty
data fork. -/
def DataFile.create (fileType : Nat) : DataFile := ⟨fileType, [], 0, false⟩

/-- Effect of a successful `FSpOpenDF`: the data fork is open, the mark at its start. -/
def DataFile.openDF (f : DataFile) : DataFile := { f with mark := 0, isOpen := true }

/-- Effect of a successful `SetFPos(refNum, fsFromStart, posOff)`. -/
def DataFile.setFPos (f : DataFile) (posOff : Int) : DataFile := { f with mark := posOff.toNat }

/-- Effect of a successful `FSWrite(refNum, &count, buffPtr)`: the first `count`
bytes of the buffer replace the bytes at the mark, and the mark moves past them. -/
def DataFile.write (f : DataFile) (count : Int) (buffer : List Nat) : DataFile :=
  { f with
    bytes := f.bytes.take f.mark ++ buffer.take count.toNat ++ f.bytes.drop (f.mark + count.toNat),
    mark := f.mark + count.toNat }

/-- Effect of a successful `SetEOF(refNum, logEOF)`: the data fork is cut, or
extended, to `logEOF` bytes. -/
def DataFile.setEOF (f : DataFile) (logEOF : Int) : DataFile :=
  { f with
    bytes := f.bytes.take logEOF.toNat ++ List.replicate (logEOF.toNat - f.bytes.length) 0 }

/-- Effect of a successful `FSClose`. -/
def DataFile.close (f : DataFile) : DataFile := { f with isOpen := false }

/-- One call issued by `QTCmpr_PromptUserForDiskFileAndSaveCompressed`, with the
arguments the function computed and the result code it received. -/
inductive FileCall
  | QTUtils_ConvertCToPascalString
  | GetHandleSize
  | QTFrame_PutFile (selected : Bool)
  | HLock
  | FSpCreate (fileType : Nat) (result : Int)
  | FSpOpenDF (result : Int)
  | SetFPos (posOff : Int) (result : Int)
  | FSWrite (count : Int) (result : Int)
  | SetEOF (logEOF : Int) (result : Int)
  | FSClose (result : Int)
  | free
  | HUnlock
deriving DecidableEq, Repr

/-- Everything `QTCmpr_PromptUserForDiskFileAndSaveCompressed` learns from outside:
its two arguments (`none` for `NULL`; a handle is the bytes of its block, whose
length is what `GetHandleSize` returns), the user's answer to the file prompt, and
the result codes of the File Manager calls. -/
structure SaveWorld where
  theHandle : Option (List Nat)
  theDesc : Option ImageDescription
  /-- The flag `myIsSelected` set by `QTFrame_PutFile`. -/
  fileSelected : Bool
  /-- Result of `FSpCreate`. -/
  fspCreate : Int
  /-- Result of `FSpOpenDF`. -/
  fspOpenDF : Int
  /-- Result of `SetFPos(myRefNum, fsFromStart, 0)`. -/
  setFPosStart : Int
  /-- Result of `FSWrite`. -/
  fsWrite : Int
  /-- Result of `SetFPos(myRefNum, fsFromStart, dataSize)`. -/
  setFPosEnd : Int
  /-- Result of `SetEOF`. -/
  setEOF : Int
  /-- Result of `FSClose`. -/
  fsClose : Int

/-- The state of lines 235–257: the calls made so far, the variable `myErr`, whether
`myRefNum` is not -1, and the file being written (`none` until it is created). -/
structure SaveState where
  trace : List FileCall
  myErr : Int
  myRefNum : Bool
  file : Option DataFile
deriving DecidableEq, Repr

/-- The statement `if (myErr == noErr) myErr = call;`: the call is made when `myErr`
is `noErr`, and has its effect on the file when it returns `noErr`. -/
def SaveState.step (s : SaveState) (call : FileCall) (result : Int)
    (effect : DataFile → DataFile) : SaveState :=
  if s.myErr = noErr then
    { s with
      trace := s.trace ++ [call],
      myErr := result,
      file := if result = noErr then s.file.map effect else s.file }
  else s

/-- What a run of `QTCmpr_PromptUserForDiskFileAndSaveCompressed` did: its calls and
the file it leaves (`none` when it created no file). -/
structure SaveRun where
  trace : List FileCall
  file : Option DataFile
deriving DecidableEq, Repr

/-- Lines 259–263: the code after the label `bail` of the function. -/
def saveBail : List FileCall := [FileCall.free, FileCall.free, FileCall.HUnlock]

/-- Lines 235–257: the file is created, opened, written and closed. -/
def saveFile (w : SaveWorld) (handle : List Nat) (desc : ImageDescription) : SaveState :=
  let s0 : SaveState :=
    ⟨[FileCall.HLock, FileCall.FSpCreate desc.cType w.fspCreate], w.fspCreate, false,
     if w.fspCreate = noErr then some (DataFile.create desc.cType) else none⟩
  let s1 : SaveState :=
    if s0.myErr = noErr then
      { s0 with
        trace := s0.trace ++ [FileCall.FSpOpenDF w.fspOpenDF],
        myErr := w.fspOpenDF,
        myRefNum := decide (w.fspOpenDF = noErr),
        file := if w.fspOpenDF = noErr then s0.file.map DataFile.openDF else s0.file }
    else s0
  let s2 := s1.step (FileCall.SetFPos 0 w.setFPosStart) w.setFPosStart (fun f => f.setFPos 0)
  let s3 := s2.step (FileCall.FSWrite desc.dataSize w.fsWrite) w.fsWrite
    (fun f => f.write desc.dataSize handle)
  let s4 := s3.step (FileCall.SetFPos desc.dataSize w.setFPosEnd) w.setFPosEnd
    (fun f => f.setFPos desc.dataSize)
  let s5 := s4.step (FileCall.SetEOF desc.dataSize w.setEOF) w.setEOF
    (fun f => f.setEOF desc.dataSize)
  if s5.myRefNum then
    { s5 with
      trace := s5.trace ++ [FileCall.FSClose w.fsClose],
      myErr := w.fsClose,
      file := if w.fsClose = noErr then s5.file.map DataFile.close else s5.file }
  else s5

/-- Lines 211–264, `QTCmpr_PromptUserForDiskFileAndSaveCompressed`. -/
def QTCmpr_PromptUserForDiskFileAndSaveCompressed (w : SaveWorld) : SaveRun :=
  let t0 : List FileCall :=
    [FileCall.QTUtils_ConvertCToPascalString, FileCall.QTUtils_ConvertCToPascalString]
  match w.theHandle, w.theDesc with
  | some handle, some desc =>
    if desc.dataSize > handle.length then ⟨t0 ++ [FileCall.GetHandleSize] ++ saveBail, none⟩
    else if w.fileSelected = false then
      ⟨t0 ++ [FileCall.GetHandleSize, FileCall.QTFrame_PutFile false] ++ saveBail, none⟩
    else
      ⟨t0 ++ [FileCall.GetHandleSize, FileCall.QTFrame_PutFile true] ++
          (saveFile w handle desc).trace ++ saveBail,
        (saveFile w handle desc).file⟩
  | _, _ => ⟨t0 ++ saveBail, none⟩

/-- A compressed image of 5 bytes in a handle of 8 bytes, with an image description
of 4 bytes; the user selects a file and every File Manager call succeeds. -/
def okSaveWorld : SaveWorld where
  theHandle := some [10, 20, 30, 40, 50, 0, 0, 0]
  theDesc := some ⟨1785750887, 5, [1, 2, 3, 4]⟩
  fileSelected := true
  fspCreate := 0
  fspOpenDF := 0
  setFPosStart := 0
  fsWrite := 0
  setFPosEnd := 0
  setEOF := 0
  fsClose := 0

/-! ## More observations and worlds -/

/-- The queries made with `GetMovieNextInterestingTime`, in order: the
`nextTimeEdgeOK` bit of the flags and the time the search starts from. -/
def queries : List Call → List (Bool × Int)
  | [] => []
  | Call.GetMovieNextInterestingTime edgeOK fromTime :: t => (edgeOK, fromTime) :: queries t
  | _ :: t => queries t

/-- The frame durations written back with `SCSetInfo(..., scDataRateSettingsType, ...)`,
in order. -/
def frameDurationHints : List Call → List Int
  | [] => []
  | Call.SCSetInfo Selector.scDataRateSettingsType (some ms) :: t => ms :: frameDurationHints t
  | _ :: t => frameDurationHints t

/-- The calls of a trace that belong to the data-rate hint or to the compression of a
frame, in order: `SCGetInfo` and `SCSetInfo` for the data-rate settings, and the
compress requests. -/
def rateAndCompress : List Call → List Call
  | [] => []
  | Call.SCGetInfo Selector.scDataRateSettingsType r :: t =>
    Call.SCGetInfo Selector.scDataRateSettingsType r :: rateAndCompress t
  | Call.SCSetInfo Selector.scDataRateSettingsType v :: t =>
    Call.SCSetInfo Selector.scDataRateSettingsType v :: rateAndCompress t
  | Call.SCCompressSequenceFrame r :: t => Call.SCCompressSequenceFrame r :: rateAndCompress t
  | Call.SCCompressSequenceFrameAsync r :: t =>
    Call.SCCompressSequenceFrameAsync r :: rateAndCompress t
  | _ :: t => rateAndCompress t

/-- A synchronous build and a world in which the frame rate is left blank, the time
scale is not zero, and every compress request and every `AddMediaSample` succeeds:
every pass of the loop body runs to its end. -/
def Steady (cfg : Config) (w : World) : Prop :=
  cfg.useAsyncCompression = false ∧ w.frameRate = 0 ∧ w.movieTimeScale ≠ 0 ∧
  ∀ j, w.compressSequenceFrame j = noErr ∧ w.addMediaSample j = noErr

/-- What `GetMovieNextInterestingTime` returns for a track whose samples start at the
given (increasing) times, in a movie that ends at `movieEnd`: the first sample time
at or after `t` (after `t` when the edge is not included) and the gap to the sample
that follows it (to the end of the movie for the last one); time -1 and duration 0
when there is none. -/
def nextSampleTime (times : List Int) (movieEnd : Int) (edgeOK : Bool) (t : Int) : Int × Int :=
  match times.filter (fun x => if edgeOK then decide (t ≤ x) else decide (t < x)) with
  | [] => (-1, 0)
  | [x] => (x, movieEnd - x)
  | x :: y :: _ => (x, y - x)

/-- The world `okWorld` with a movie of 4 frames, at the interesting times 0, 100,
250 and 400, that ends at time 450. -/
def interestingTimesWorld : World :=
  { okWorld with
    frameCount := 4,
    movieDuration := 450,
    nextInterestingTime := nextSampleTime [0, 100, 250, 400] 450 }

/-- The world `okWorld` with a movie of the given number of frames, each 100 units
long, every call succeeding. -/
def longMovieWorld (frames : Int) : World :=
  { okWorld with frameCount := frames, movieDuration := 100 * frames }

/-- The world `okWorld` with a movie of a single frame that lasts 3000000 units at
the time scale 30000 (100 seconds). -/
def longFrameWorld : World :=
  { okWorld with
    frameCount := 1,
    movieDuration := 3000000,
    movieTimeScale := 30000,
    nextInterestingTime := fun _ t => (t, 3000000) }

/-- The world `okWorld` in which the data-rate settings cannot be read. -/
def noDataRateWorld : World := { okWorld with getDataRateSettings := fun _ => -8971 }

/-- Line 835–844 of `QTCmpr_CompletionProc` on a memory of `OSErr` variables:
`theRefCon` is the address passed as reference constant (0 for `NULL`) and `mem`
gives the value of the variable at each address; the result is the memory when the
procedure returns. -/
def completionProcOnMemory (theResult theFlags : Int) (theRefCon : Nat) (mem : Nat → Int) :
    Nat → Int :=
  if Int.land theFlags codecCompletionDest ≠ 0 then
    if theRefCon ≠ 0 then Function.update mem theRefCon theResult else mem
  else mem

/-! # Properties -/

/-! ## General lemmas -/

theorem guard_exit_loop (calls : List Call) (fails : Prop) [Decidable fails] (l : Locals)
    (g : ProcStruct) (rest : Setup) (N : Int) :
    (guard calls fails l g rest).exit = SetupExit.loop N ↔
      ¬ fails ∧ rest.exit = SetupExit.loop N := by
  unfold guard Setup.after
  by_cases h : fails <;> simp [h]

theorem createTarget_exit_loop (cfg : Config) (w : World) (M N : Int)
    (h : (createTarget cfg w M).exit = SetupExit.loop N) : M = N := by
  simp only [createTarget, guard_exit_loop] at h
  simpa using h.2.2.2.2.2.2.2.2

/-- When the code before the loop reaches the loop, `myNumFrames` is `frameCountOf`. -/
theorem setup_exit_loop (cfg : Config) (w : World) (N : Int)
    (h : (setup cfg w).exit = SetupExit.loop N) : frameCountOf w = some N := by
  simp only [setup, guard_exit_loop, countFrames] at h
  have h9 := h.2.2.2.2.2.2.2.2.2
  split at h9
  · simp at h9
  · next M hM =>
    rw [hM, createTarget_exit_loop cfg w M N (by simpa [Setup.after] using h9)]

/-! ## Rounding to single precision -/

theorem binaryLogFuel_spec (fuel : Nat) : ∀ n : Nat, n ≤ fuel → 0 < n →
    2 ^ binaryLogFuel fuel n ≤ n ∧ n < 2 ^ (binaryLogFuel fuel n + 1) := by
  induction fuel with
  | zero => intro n h1 h2; omega
  | succ fuel ih =>
    intro n h1 h2
    unfold binaryLogFuel
    by_cases h : n < 2
    · rw [if_pos h]
      have : n = 1 := by omega
      subst this
      simp
    · rw [if_neg h]
      have := ih (n / 2) (by omega) (by omega)
      obtain ⟨a, b⟩ := this
      rw [pow_succ]
      constructor
      · omega
      · rw [pow_succ]; omega

theorem binaryLog_spec (n : Nat) (h : 0 < n) :
    2 ^ binaryLog n ≤ n ∧ n < 2 ^ (binaryLog n + 1) :=
  binaryLogFuel_spec n n le_rfl h

/-- The distance from `n / d` to `roundHalfEven n d` is at most one half; when it is
one half, the result is even. -/
theorem roundHalfEven_spec (n d : Nat) (hd : 0 < d) :
    |((roundHalfEven n d : Nat) : ℚ) - (n : ℚ) / (d : ℚ)| ≤ 1 / 2 ∧
    (|((roundHalfEven n d : Nat) : ℚ) - (n : ℚ) / (d : ℚ)| = 1 / 2 →
      roundHalfEven n d % 2 = 0) := by
  have hdq : (0 : ℚ) < (d : ℚ) := by exact_mod_cast hd
  have hn : (n : ℚ) = (d : ℚ) * ((n / d : Nat) : ℚ) + ((n % d : Nat) : ℚ) := by
    exact_mod_cast (Nat.div_add_mod n d).symm
  have hr : ((n % d : Nat) : ℚ) < (d : ℚ) := by exact_mod_cast Nat.mod_lt n hd
  have hr0 : (0 : ℚ) ≤ ((n % d : Nat) : ℚ) := by positivity
  have hx : (n : ℚ) / (d : ℚ) = ((n / d : Nat) : ℚ) + ((n % d : Nat) : ℚ) / (d : ℚ) := by
    rw [hn]; field_simp; ring
  have hf0 : (0 : ℚ) ≤ ((n % d : Nat) : ℚ) / (d : ℚ) := div_nonneg hr0 hdq.le
  have hf1 : ((n % d : Nat) : ℚ) / (d : ℚ) < 1 := (div_lt_one hdq).2 hr
  rw [hx]
  unfold roundHalfEven
  by_cases h1 : 2 * (n % d) < d
  · rw [if_pos h1]
    have h1q : ((n % d : Nat) : ℚ) / (d : ℚ) < 1 / 2 := by
      rw [div_lt_iff₀ hdq]
      have : (2 : ℚ) * ((n % d : Nat) : ℚ) < (d : ℚ) := by exact_mod_cast h1
      linarith
    have e : ((n / d : Nat) : ℚ) - (((n / d : Nat) : ℚ) + ((n % d : Nat) : ℚ) / (d : ℚ)) =
        -(((n % d : Nat) : ℚ) / (d : ℚ)) := by ring
    rw [e, abs_neg, abs_of_nonneg hf0]
    exact ⟨h1q.le, fun h => absurd h (ne_of_lt h1q)⟩
  · rw [if_neg h1]
    by_cases h2 : d < 2 * (n % d)
    · rw [if_pos h2]
      have h2q : 1 / 2 < ((n % d : Nat) : ℚ) / (d : ℚ) := by
        rw [lt_div_iff₀ hdq]
        have : (d : ℚ) < (2 : ℚ) * ((n % d : Nat) : ℚ) := by exact_mod_cast h2
        linarith
      have e : (((n / d + 1 : Nat)) : ℚ) - (((n / d : Nat) : ℚ) + ((n % d : Nat) : ℚ) / (d : ℚ)) =
          1 - ((n % d : Nat) : ℚ) / (d : ℚ) := by push_cast; ring
      rw [e, abs_of_nonneg (by linarith)]
      exact ⟨by linarith, fun h => by linarith⟩
    · rw [if_neg h2]
      have h3 : 2 * (n % d) = d := by omega
      have h3q : ((n % d : Nat) : ℚ) / (d : ℚ) = 1 / 2 := by
        rw [div_eq_iff hdq.ne']
        have : (2 : ℚ) * ((n % d : Nat) : ℚ) = (d : ℚ) := by exact_mod_cast h3
        linarith
      by_cases h4 : (n / d) % 2 = 0
      · rw [if_pos h4]
        have e : ((n / d : Nat) : ℚ) - (((n / d : Nat) : ℚ) + ((n % d : Nat) : ℚ) / (d : ℚ)) =
            -(((n % d : Nat) : ℚ) / (d : ℚ)) := by ring
        rw [e, abs_neg, abs_of_nonneg hf0, h3q]
        exact ⟨le_rfl, fun _ => h4⟩
      · rw [if_neg h4]
        have e : (((n / d + 1 : Nat)) : ℚ) - (((n / d : Nat) : ℚ) + ((n % d : Nat) : ℚ) / (d : ℚ)) =
            1 - ((n % d : Nat) : ℚ) / (d : ℚ) := by push_cast; ring
        rw [e, h3q]
        refine ⟨by rw [abs_of_nonneg] <;> norm_num, fun _ => by omega⟩

theorem scaleBy_spec (n d : Nat) (e : Int) (hd : 0 < d) :
    0 < (scaleBy n d e).2 ∧
    ((scaleBy n d e).1 : ℚ) / ((scaleBy n d e).2 : ℚ) = (n : ℚ) / (d : ℚ) / (2 : ℚ) ^ e := by
  have hdq : (0 : ℚ) < (d : ℚ) := by exact_mod_cast hd
  unfold scaleBy
  by_cases h : 0 ≤ e
  · rw [if_pos h]
    refine ⟨by positivity, ?_⟩
    obtain ⟨k, rfl⟩ := Int.eq_ofNat_of_zero_le h
    simp only [Int.toNat_ofNat, zpow_natCast]
    push_cast
    rw [div_div]
  · rw [if_neg h]
    refine ⟨hd, ?_⟩
    obtain ⟨k, hk⟩ := Int.eq_ofNat_of_zero_le (show 0 ≤ -e by omega)
    have he : e = -(k : Int) := by omega
    rw [hk, he]
    simp only [Int.toNat_ofNat, zpow_neg, zpow_natCast]
    push_cast
    field_simp


theorem floatExponent_spec (n d : Nat) (hn : 0 < n) (hd : 0 < d) :
    (2 : ℚ) ^ 23 ≤ (n : ℚ) / (d : ℚ) / (2 : ℚ) ^ floatExponent n d ∧
    (n : ℚ) / (d : ℚ) / (2 : ℚ) ^ floatExponent n d < (2 : ℚ) ^ 24 := by
  have hnq : (0 : ℚ) < (n : ℚ) := by exact_mod_cast hn
  have hdq : (0 : ℚ) < (d : ℚ) := by exact_mod_cast hd
  obtain ⟨a1, a2⟩ := binaryLog_spec n hn
  obtain ⟨b1, b2⟩ := binaryLog_spec d hd
  have a1q : (2 : ℚ) ^ binaryLog n ≤ (n : ℚ) := by exact_mod_cast a1
  have a2q : (n : ℚ) < (2 : ℚ) ^ binaryLog n * 2 := by
    have : (n : ℚ) < (2 : ℚ) ^ (binaryLog n + 1) := by exact_mod_cast a2
    rwa [pow_succ] at this
  have b1q : (2 : ℚ) ^ binaryLog d ≤ (d : ℚ) := by exact_mod_cast b1
  have b2q : (d : ℚ) < (2 : ℚ) ^ binaryLog d * 2 := by
    have : (d : ℚ) < (2 : ℚ) ^ (binaryLog d + 1) := by exact_mod_cast b2
    rwa [pow_succ] at this
  have hA : (0 : ℚ) < (2 : ℚ) ^ binaryLog n := by positivity
  have hB : (0 : ℚ) < (2 : ℚ) ^ binaryLog d := by positivity
  set k : Int := (binaryLog n : Int) - (binaryLog d : Int) with hk
  have hK : (2 : ℚ) ^ k = (2 : ℚ) ^ binaryLog n / (2 : ℚ) ^ binaryLog d := by
    rw [hk, zpow_sub₀ (by norm_num), zpow_natCast, zpow_natCast]
  have hKpos : (0 : ℚ) < (2 : ℚ) ^ k := by positivity
  set y : ℚ := (n : ℚ) / (d : ℚ) / (2 : ℚ) ^ k with hy
  have hy1 : 1 / 2 < y := by
    rw [hy, hK, div_div, lt_div_iff₀ (by positivity)]
    rw [show (d : ℚ) * ((2 : ℚ) ^ binaryLog n / (2 : ℚ) ^ binaryLog d) =
      (d : ℚ) / (2 : ℚ) ^ binaryLog d * (2 : ℚ) ^ binaryLog n by field_simp]
    have : (d : ℚ) / (2 : ℚ) ^ binaryLog d < 2 := by rw [div_lt_iff₀ hB]; linarith
    nlinarith
  have hy2 : y < 2 := by
    rw [hy, hK, div_div, div_lt_iff₀ (by positivity)]
    rw [show (2 : ℚ) * ((d : ℚ) * ((2 : ℚ) ^ binaryLog n / (2 : ℚ) ^ binaryLog d)) =
      (d : ℚ) / (2 : ℚ) ^ binaryLog d * ((2 : ℚ) ^ binaryLog n * 2) by field_simp; ring]
    have : 1 ≤ (d : ℚ) / (2 : ℚ) ^ binaryLog d := by rw [le_div_iff₀ hB]; linarith
    nlinarith
  obtain ⟨s0, s1⟩ := scaleBy_spec n d k hd
  have hs2 : (0 : ℚ) < ((scaleBy n d k).2 : ℚ) := by exact_mod_cast s0
  have htest : (scaleBy n d k).2 ≤ (scaleBy n d k).1 ↔ 1 ≤ y := by
    rw [hy, ← s1, le_div_iff₀ hs2, one_mul]
    exact_mod_cast Iff.rfl
  have hscale : ∀ j : Int, (n : ℚ) / (d : ℚ) / (2 : ℚ) ^ (k - j) = y * (2 : ℚ) ^ j := by
    intro j
    rw [hy, zpow_sub₀ (by norm_num)]
    field_simp
  unfold floatExponent
  simp only []
  rw [← hk]
  by_cases h : (scaleBy n d k).2 ≤ (scaleBy n d k).1
  · rw [if_pos h, hscale 23]
    have := htest.1 h
    norm_num
    constructor <;> linarith
  · rw [if_neg h, hscale 24]
    have : y < 1 := by
      by_contra hc
      exact h (htest.2 (not_lt.1 hc))
    norm_num
    constructor <;> linarith


theorem nearest_integer (y : ℚ) (M : Int) (hM : |(M : ℚ) - y| ≤ 1 / 2) (Z : Int) :
    |(M : ℚ) - y| ≤ |(Z : ℚ) - y| ∧
    (Z ≠ M → |(Z : ℚ) - y| = |(M : ℚ) - y| → |(M : ℚ) - y| = 1 / 2) := by
  by_cases h : Z = M
  · rw [h]
    exact ⟨le_rfl, fun h0 => absurd rfl h0⟩
  · have h1 : (1 : ℚ) ≤ |(Z : ℚ) - (M : ℚ)| := by
      have : (1 : Int) ≤ |Z - M| := Int.one_le_abs (sub_ne_zero.2 h)
      exact_mod_cast this
    have h2 : |(Z : ℚ) - (M : ℚ)| ≤ |(Z : ℚ) - y| + |(M : ℚ) - y| := by
      have := abs_sub_le (Z : ℚ) y (M : ℚ)
      rwa [abs_sub_comm y (M : ℚ)] at this
    refine ⟨by linarith, fun _ he => ?_⟩
    rw [he] at h2
    linarith

/-- Among the numbers `m * 2 ^ j` with a significand of at most 24 bits, none is
nearer to `y ≥ 2 ^ 23` than the integer `M` nearest to `y`; and if another one is
as near, `y` lies half way between two integers. -/
theorem nearest_core (y : ℚ) (M : Int) (hy : (2 : ℚ) ^ 23 ≤ y) (hM : |(M : ℚ) - y| ≤ 1 / 2)
    (m j : Int) (hm : |m| ≤ 2 ^ 24) :
    |(M : ℚ) - y| ≤ |(m : ℚ) * (2 : ℚ) ^ j - y| ∧
    ((m : ℚ) * (2 : ℚ) ^ j ≠ (M : ℚ) → |(m : ℚ) * (2 : ℚ) ^ j - y| = |(M : ℚ) - y| →
      |(M : ℚ) - y| = 1 / 2) := by
  by_cases hj : 0 ≤ j
  · obtain ⟨k, rfl⟩ := Int.eq_ofNat_of_zero_le hj
    obtain ⟨h1, h2⟩ := nearest_integer y M hM (m * 2 ^ k)
    rw [zpow_natCast]
    have e : ((m * 2 ^ k : Int) : ℚ) = (m : ℚ) * (2 : ℚ) ^ k := by push_cast; ring
    rw [e] at h1 h2
    refine ⟨h1, fun hne he => h2 (fun h0 => hne ?_) he⟩
    rw [← e, h0]
  · have h1 : (m : ℚ) * (2 : ℚ) ^ j ≤ (2 : ℚ) ^ 23 := by
      have hm1 : (m : ℚ) ≤ (2 : ℚ) ^ 24 := by
        have : m ≤ 2 ^ 24 := le_trans (le_abs_self m) hm
        exact_mod_cast this
      have hj1 : (2 : ℚ) ^ j ≤ (2 : ℚ) ^ (-1 : Int) :=
        zpow_le_zpow_right₀ (by norm_num) (by omega)
      have hj0 : (0 : ℚ) < (2 : ℚ) ^ j := by positivity
      by_cases hm0 : (m : ℚ) ≤ 0
      · have : (m : ℚ) * (2 : ℚ) ^ j ≤ 0 := mul_nonpos_of_nonpos_of_nonneg hm0 hj0.le
        have : (0 : ℚ) ≤ (2 : ℚ) ^ 23 := by positivity
        linarith
      · push_neg at hm0
        calc (m : ℚ) * (2 : ℚ) ^ j ≤ (2 : ℚ) ^ 24 * (2 : ℚ) ^ (-1 : Int) :=
              mul_le_mul hm1 hj1 hj0.le (by positivity)
          _ = (2 : ℚ) ^ 23 := by norm_num
    obtain ⟨h2, h2t⟩ := nearest_integer y M hM (2 ^ 23)
    have h3 : |((2 ^ 23 : Int) : ℚ) - y| = y - (2 : ℚ) ^ 23 := by
      push_cast
      rw [abs_sub_comm, abs_of_nonneg (by linarith)]
      norm_num
    rw [h3] at h2 h2t
    have h4 : (0 : ℚ) ≤ y - (m : ℚ) * (2 : ℚ) ^ j := by linarith
    rw [abs_sub_comm ((m : ℚ) * (2 : ℚ) ^ j) y, abs_of_nonneg h4]
    refine ⟨by linarith, fun hne he => ?_⟩
    have h5 : (m : ℚ) * (2 : ℚ) ^ j = (2 : ℚ) ^ 23 := by linarith
    refine h2t (fun h0 => hne ?_) (by linarith)
    rw [h5, ← h0]
    norm_num

/-- Rounding a positive number `X = y * 2 ^ e`, `2 ^ 23 ≤ y`, to the integer `M`
nearest to `y` times `2 ^ e`. -/
theorem round_scaled (y : ℚ) (M e : Int) (hy : (2 : ℚ) ^ 23 ≤ y)
    (hM : |(M : ℚ) - y| ≤ 1 / 2) :
    |(M : ℚ) * (2 : ℚ) ^ e - y * (2 : ℚ) ^ e| ≤ |y * (2 : ℚ) ^ e| / 2 ^ 24 ∧
    (∀ m j : Int, |m| ≤ 2 ^ 24 →
      |(M : ℚ) * (2 : ℚ) ^ e - y * (2 : ℚ) ^ e| ≤ |(m : ℚ) * (2 : ℚ) ^ j - y * (2 : ℚ) ^ e|) ∧
    ∀ m j : Int, |m| ≤ 2 ^ 24 → (m : ℚ) * (2 : ℚ) ^ j ≠ (M : ℚ) * (2 : ℚ) ^ e →
      |(m : ℚ) * (2 : ℚ) ^ j - y * (2 : ℚ) ^ e| = |(M : ℚ) * (2 : ℚ) ^ e - y * (2 : ℚ) ^ e| →
      |(M : ℚ) - y| = 1 / 2 := by
  have hE : (0 : ℚ) < (2 : ℚ) ^ e := by positivity
  have h1 : ∀ t : ℚ, |t * (2 : ℚ) ^ e - y * (2 : ℚ) ^ e| = |t - y| * (2 : ℚ) ^ e := by
    intro t
    rw [← sub_mul, abs_mul, abs_of_pos hE]
  have hy0 : (0 : ℚ) ≤ y := le_trans (by positivity) hy
  have h2 : ∀ m j : Int, (m : ℚ) * (2 : ℚ) ^ j = (m : ℚ) * (2 : ℚ) ^ (j - e) * (2 : ℚ) ^ e := by
    intro m j
    rw [mul_assoc, ← zpow_add₀ (by norm_num)]
    congr 2
    ring
  refine ⟨?_, ?_, ?_⟩
  · rw [h1, abs_mul, abs_of_pos hE, abs_of_nonneg hy0, mul_div_right_comm]
    apply mul_le_mul_of_nonneg_right _ hE.le
    rw [le_div_iff₀ (by positivity)]
    have : (1 : ℚ) / 2 * 2 ^ 24 = 2 ^ 23 := by norm_num
    nlinarith [abs_nonneg ((M : ℚ) - y)]
  · intro m j hm
    rw [h2 m j, h1, h1]
    exact mul_le_mul_of_nonneg_right (nearest_core y M hy hM m (j - e) hm).1 hE.le
  · intro m j hm hne he
    rw [h2 m j] at hne he
    rw [h1, h1] at he
    refine (nearest_core y M hy hM m (j - e) hm).2 (fun h0 => hne ?_)
      (mul_right_cancel₀ hE.ne' he)
    rw [h0]

/-- Rounding to `float`: the result has a significand of at most 24 bits, it
differs from `n / d` by at most `2 ^ (-24)` of it, no number with a significand of
at most 24 bits is nearer to `n / d`, and if another one is as near, the significand
of the result is even. -/
theorem roundToSingle_spec (n : Int) (d : Nat) (hd : 0 < d) :
    |(roundToSingle n d).significand| ≤ 2 ^ 24 ∧
    |(roundToSingle n d).toRat - (n : ℚ) / (d : ℚ)| ≤ |(n : ℚ) / (d : ℚ)| / 2 ^ 24 ∧
    (∀ m j : Int, |m| ≤ 2 ^ 24 →
      |(roundToSingle n d).toRat - (n : ℚ) / (d : ℚ)| ≤
        |(m : ℚ) * (2 : ℚ) ^ j - (n : ℚ) / (d : ℚ)|) ∧
    ∀ m j : Int, |m| ≤ 2 ^ 24 → (m : ℚ) * (2 : ℚ) ^ j ≠ (roundToSingle n d).toRat →
      |(m : ℚ) * (2 : ℚ) ^ j - (n : ℚ) / (d : ℚ)| =
        |(roundToSingle n d).toRat - (n : ℚ) / (d : ℚ)| →
      2 ^ 23 ≤ |(roundToSingle n d).significand| ∧ (roundToSingle n d).significand % 2 = 0 := by
  have hdq : (0 : ℚ) < (d : ℚ) := by exact_mod_cast hd
  by_cases hn : n = 0
  · subst hn
    refine ⟨by simp [roundToSingle], by simp [roundToSingle, Single.toRat],
      by simp [roundToSingle, Single.toRat], ?_⟩
    intro m j _ hne he
    exfalso
    simp only [roundToSingle, Single.toRat, if_true, Int.cast_zero, zero_mul, zero_div,
      sub_zero, abs_zero, abs_eq_zero] at hne he
    exact hne he
  · have hN : 0 < n.natAbs := Int.natAbs_pos.2 hn
    obtain ⟨e1, e2⟩ := floatExponent_spec n.natAbs d hN hd
    obtain ⟨s0, s1⟩ := scaleBy_spec n.natAbs d (floatExponent n.natAbs d) hd
    obtain ⟨r1, r2⟩ := roundHalfEven_spec (scaleBy n.natAbs d (floatExponent n.natAbs d)).1
      (scaleBy n.natAbs d (floatExponent n.natAbs d)).2 s0
    rw [s1] at r1 r2
    unfold roundToSingle Single.toRat
    rw [if_neg hn]
    simp only []
    set e := floatExponent n.natAbs d with he
    set M : Nat := roundHalfEven (scaleBy n.natAbs d e).1 (scaleBy n.natAbs d e).2 with hM
    set y : ℚ := (n.natAbs : ℚ) / (d : ℚ) / (2 : ℚ) ^ e with hy
    have hE : (0 : ℚ) < (2 : ℚ) ^ e := by positivity
    have hM1 : (M : Int) ≤ 2 ^ 24 := by
      have h1 : (M : ℚ) ≤ y + 1 / 2 := by linarith [(abs_le.1 r1).2]
      have h2 : (M : ℚ) < (2 : ℚ) ^ 24 + 1 := by linarith
      have h3 : M < 2 ^ 24 + 1 := by exact_mod_cast h2
      omega
    have hM0 : (2 : Int) ^ 23 ≤ (M : Int) := by
      have h1 : y - 1 / 2 ≤ (M : ℚ) := by linarith [(abs_le.1 r1).1]
      have h2 : (2 : ℚ) ^ 23 - 1 < (M : ℚ) := by linarith
      have h3 : 2 ^ 23 - 1 < (M : Int) := by exact_mod_cast h2
      omega
    have hX : (n.natAbs : ℚ) / (d : ℚ) = y * (2 : ℚ) ^ e := by
      rw [hy]; field_simp; ring
    have r1i : |(((M : Nat) : Int) : ℚ) - y| ≤ 1 / 2 := by exact_mod_cast r1
    have hev : |(((M : Nat) : Int) : ℚ) - y| = 1 / 2 → (M : Int) % 2 = 0 := by
      intro h
      have := r2 (by exact_mod_cast h)
      omega
    obtain ⟨k1, k2, k3⟩ := round_scaled y (M : Int) e e1 r1i
    have habs : |(M : Int)| = (M : Int) := abs_of_nonneg (by positivity)
    by_cases hneg : n < 0
    · have hnq : (n : ℚ) = -(n.natAbs : ℚ) := by
        have h0 : (n.natAbs : Int) = -n := by omega
        rw [← Int.cast_natCast, h0]
        push_cast
        ring
      rw [if_pos hneg, hnq, neg_div, hX]
      have e3 : (((-(M : Int) : Int)) : ℚ) * (2 : ℚ) ^ e - -(y * (2 : ℚ) ^ e) =
          -(((M : Int) : ℚ) * (2 : ℚ) ^ e - y * (2 : ℚ) ^ e) := by push_cast; ring
      have e4 : ∀ (m j : Int), (m : ℚ) * (2 : ℚ) ^ j - -(y * (2 : ℚ) ^ e) =
          -(((-m : Int) : ℚ) * (2 : ℚ) ^ j - y * (2 : ℚ) ^ e) := by
        intro m j; push_cast; ring
      rw [e3, abs_neg, abs_neg, abs_neg, habs]
      refine ⟨hM1, k1, fun m j hm => ?_, fun m j hm hne he => ?_⟩
      · rw [e4, abs_neg]
        exact k2 (-m) j (by rwa [abs_neg])
      · rw [e4, abs_neg] at he
        have h5 := k3 (-m) j (by rwa [abs_neg]) (fun h0 => hne ?_) he
        · exact ⟨hM0, by have := hev h5; omega⟩
        · have : (m : ℚ) * (2 : ℚ) ^ j = -(((-m : Int) : ℚ) * (2 : ℚ) ^ j) := by
            push_cast; ring
          rw [this, h0]
          push_cast
          ring
    · have hnq : (n : ℚ) = (n.natAbs : ℚ) := by
        have h0 : (n.natAbs : Int) = n := by omega
        rw [← Int.cast_natCast, h0]
      rw [if_neg hneg, hnq, hX, habs]
      exact ⟨hM1, k1, k2, fun m j hm hne he => ⟨hM0, hev (k3 m j hm hne he)⟩⟩

theorem roundToSingle_rounded (n : Int) (d : Nat) (hd : 0 < d) :
    IsRoundedSingle (roundToSingle n d).toRat ((n : ℚ) / (d : ℚ)) := by
  obtain ⟨h1, -, h3, h4⟩ := roundToSingle_spec n d hd
  refine ⟨⟨_, _, h1, rfl⟩, h3, fun m j hm hne he => ?_⟩
  obtain ⟨h5, h6⟩ := h4 m j hm hne he
  exact ⟨_, _, h5, h1, h6, rfl⟩

/-- A number rounded to `float` differs from the exact one by at most `2 ^ (-24)` of
it. -/
theorem IsRoundedSingle.error {y x : ℚ} (h : IsRoundedSingle y x) :
    |y - x| ≤ |x| / 2 ^ 24 := by
  have h1 := roundToSingle_spec x.num x.den x.den_pos
  rw [Rat.num_div_den] at h1
  exact le_trans (h.2.1 _ _ h1.1) h1.2.1

/-- A number with a significand of at most 24 bits is rounded to itself. -/
theorem IsRoundedSingle.exact {y : ℚ} (m e : Int) (hm : |m| ≤ 2 ^ 24)
    (h : IsRoundedSingle y ((m : ℚ) * (2 : ℚ) ^ e)) : y = (m : ℚ) * (2 : ℚ) ^ e := by
  have := h.2.1 m e hm
  rw [sub_self, abs_zero] at this
  exact sub_eq_zero.1 (abs_eq_zero.1 (le_antisymm this (abs_nonneg _)))

/-- Rounding commutes with scaling by a power of 2: the exponent is not bounded. -/
theorem IsRoundedSingle.scale {y x : ℚ} (h : IsRoundedSingle y x) (k : Int) :
    IsRoundedSingle (y * (2 : ℚ) ^ k) (x * (2 : ℚ) ^ k) := by
  have hK : (0 : ℚ) < (2 : ℚ) ^ k := by positivity
  obtain ⟨⟨m, e, hm, hy⟩, h2, h3⟩ := h
  have e1 : ∀ (m' j : Int),
      (m' : ℚ) * (2 : ℚ) ^ j = (m' : ℚ) * (2 : ℚ) ^ (j - k) * (2 : ℚ) ^ k := by
    intro m' j
    rw [mul_assoc, ← zpow_add₀ (by norm_num)]
    congr 2
    ring
  refine ⟨⟨m, e + k, hm, ?_⟩, fun m' j hm' => ?_, fun m' j hm' hne he => ?_⟩
  · rw [hy, zpow_add₀ (by norm_num), mul_assoc]
  · rw [e1 m' j, ← sub_mul, ← sub_mul, abs_mul, abs_mul, abs_of_pos hK]
    exact mul_le_mul_of_nonneg_right (h2 m' (j - k) hm') hK.le
  · rw [e1 m' j] at hne he
    rw [← sub_mul, ← sub_mul, abs_mul, abs_mul, abs_of_pos hK] at he
    obtain ⟨m0, e0, a1, a2, a3, a4⟩ := h3 m' (j - k) hm' (fun h0 => hne (by rw [h0]))
      (mul_right_cancel₀ hK.ne' he)
    exact ⟨m0, e0 + k, a1, a2, a3, by rw [a4, zpow_add₀ (by norm_num), mul_assoc]⟩

theorem Single.div_rounded (x y : Single) (hy : y.significand ≠ 0) :
    IsRoundedSingle (Single.div x y).toRat (x.toRat / y.toRat) := by
  have hpos : 0 < y.significand.natAbs := Int.natAbs_pos.2 hy
  have h := (roundToSingle_rounded
    (if y.significand < 0 then -x.significand else x.significand) y.significand.natAbs hpos).scale
    (x.exponent - y.exponent)
  have e1 : (Single.div x y).toRat =
      (roundToSingle (if y.significand < 0 then -x.significand else x.significand)
        y.significand.natAbs).toRat * (2 : ℚ) ^ (x.exponent - y.exponent) := by
    simp only [Single.div, Single.toRat]
    rw [mul_assoc, ← zpow_add₀ (by norm_num), add_sub_assoc]
  have hyq : (y.significand : ℚ) ≠ 0 := by exact_mod_cast hy
  have e2 : x.toRat / y.toRat =
      (((if y.significand < 0 then -x.significand else x.significand : Int)) : ℚ) /
        ((y.significand.natAbs : Nat) : ℚ) * (2 : ℚ) ^ (x.exponent - y.exponent) := by
    simp only [Single.toRat]
    rw [zpow_sub₀ (by norm_num)]
    have hE : (2 : ℚ) ^ y.exponent ≠ 0 := by positivity
    by_cases hneg : y.significand < 0
    · have h0 : (y.significand.natAbs : Int) = -y.significand := by omega
      rw [if_pos hneg, ← Int.cast_natCast (R := ℚ) y.significand.natAbs, h0]
      push_cast
      field_simp
    · have h0 : (y.significand.natAbs : Int) = y.significand := by omega
      rw [if_neg hneg, ← Int.cast_natCast (R := ℚ) y.significand.natAbs, h0]
      field_simp
  rw [e1, e2]
  exact h

theorem IsRoundedSingle.eq_zero {x : ℚ} (h : IsRoundedSingle 0 x) : x = 0 := by
  have := h.error
  rw [zero_sub, abs_neg] at this
  by_contra hx
  have hpos : 0 < |x| := abs_pos.2 hx
  have : |x| / 2 ^ 24 < |x| := by
    rw [div_lt_iff₀ (by positivity)]
    nlinarith
  linarith

theorem Single.div_significand_ne_zero (x y : Single) (hx : x.significand ≠ 0)
    (hy : y.significand ≠ 0) : (Single.div x y).significand ≠ 0 := by
  intro h
  have h1 := Single.div_rounded x y hy
  have h2 : (Single.div x y).toRat = 0 := by simp [Single.toRat, h]
  rw [h2] at h1
  have h3 := h1.eq_zero
  have hxq : x.toRat ≠ 0 := by
    unfold Single.toRat
    exact mul_ne_zero (by exact_mod_cast hx) (by positivity)
  have hyq : y.toRat ≠ 0 := by
    unfold Single.toRat
    exact mul_ne_zero (by exact_mod_cast hy) (by positivity)
  exact div_ne_zero hxq hyq h3

theorem resampleNumFrames_ne_zero (D fr ts : Int) : resampleNumFrames D fr ts ≠ some 0 := by
  unfold resampleNumFrames
  split_ifs
  · simp
  · split
    · simp
    · next n _ =>
      intro h
      have := Option.some.inj h
      split_ifs at this <;> omega

/-- The frame count at products and quotients that single precision cannot hold:
the rounded product of 21001 and 1964114 divided by 600 · 65536 is 1049 (the exact
quotient is 1048.99999…), and likewise 109 for 108.999997…, 11 for 10.9999997…;
while 1120875 · 3932160, whose exact quotient by 44100 · 65536 is 1525, is rounded
down and gives 1524. -/
theorem resampleNumFrames_rounded_products :
    resampleNumFrames 21001 1964114 600 = some 1049 ∧
    Int.tdiv (21001 * 1964114) (600 * 65536) = 1048 ∧
    resampleNumFrames 200488 1571291 44100 = some 109 ∧
    Int.tdiv (200488 * 1571291) (44100 * 65536) = 108 ∧
    resampleNumFrames 1120875 3932160 44100 = some 1524 ∧
    Int.tdiv (1120875 * 3932160) (44100 * 65536) = 1525 ∧
    resampleNumFrames 10 43253759 600 = some 11 ∧
    Int.tdiv (10 * 43253759) (600 * 65536) = 10 := by
  decide

/-! ## C1 : the resampled frame count -/

theorem routines_append (a b : List Call) : routines (a ++ b) = routines a ++ routines b := by
  simp [routines]

theorem routines_cons (c : Call) (t : List Call) : routines (c :: t) = c.routine :: routines t := rfl

theorem routines_nil : routines [] = [] := rfl

theorem after_routines (P : Routine → Prop) (pre : List Call) (s : Setup)
    (h1 : ∀ r ∈ routines pre, P r) (h2 : ∀ r ∈ routines s.trace, P r) :
    ∀ r ∈ routines (s.after pre).trace, P r := by
  intro r hr
  simp only [Setup.after, routines_append, List.mem_append] at hr
  rcases hr with hr | hr
  · exact h1 r hr
  · exact h2 r hr

theorem guard_routines (P : Routine → Prop) (calls : List Call) (fails : Prop) [Decidable fails]
    (l : Locals) (g : ProcStruct) (rest : Setup)
    (h1 : ∀ r ∈ routines calls, P r) (h2 : ∀ r ∈ routines rest.trace, P r) :
    ∀ r ∈ routines (guard calls fails l g rest).trace, P r := by
  unfold guard
  by_cases h : fails
  · simpa [h] using h1
  · simpa [h] using after_routines P calls rest h1 h2

theorem createTarget_routines (cfg : Config) (w : World) (M : Int) :
    ∀ r ∈ routines (createTarget cfg w M).trace, r ∈ setupRoutines := by
  unfold createTarget
  iterate 8
    refine guard_routines _ _ _ _ _ _
      (by first
        | (simp only [routines_cons, routines_nil, Call.routine]; decide)
        | (split <;> simp only [routines_cons, routines_nil, Call.routine] <;> decide)) ?_
  split <;> simp only [routines_cons, routines_nil, Call.routine, List.cons_append, List.nil_append] <;> decide

theorem countFrames_routines (cfg : Config) (w : World) :
    ∀ r ∈ routines (countFrames cfg w).trace, r ∈ setupRoutines := by
  have h : ∀ r ∈ routines (countFramesCalls w), r ∈ setupRoutines := by
    unfold countFramesCalls
    split <;> simp only [routines_cons, routines_nil, Call.routine, List.cons_append, List.nil_append] <;> decide
  unfold countFrames
  split
  · exact h
  · exact after_routines _ _ _ h (createTarget_routines cfg w _)

/-- The code before the loop calls only the routines of `setupRoutines`. -/
theorem setup_routines (cfg : Config) (w : World) :
    ∀ r ∈ routines (setup cfg w).trace, r ∈ setupRoutines := by
  unfold setup
  iterate 7
    refine guard_routines _ _ _ _ _ _
      (by simp only [routines_cons, routines_nil, Call.routine]; decide) ?_
  refine guard_routines _ _ _ _ _ _ ?_ ?_
  · unfold QTCmpr_InstallExtendedProcs
    split <;> (try split) <;>
      simp only [routines_cons, routines_nil, Call.routine, List.cons_append, List.nil_append,
        List.append_nil] <;> decide
  refine guard_routines _ _ _ _ _ _
      (by simp only [routines_cons, routines_nil, Call.routine]; decide) ?_
  exact countFrames_routines cfg w

theorem bail_routines (cfg : Config) (l : Locals) (cp : Bool) :
    ∀ r ∈ routines (bail cfg l cp), r ∈ bailRoutines := by
  unfold bail
  split_ifs <;>
    simp only [routines_cons, routines_nil, Call.routine, List.cons_append, List.nil_append,
        List.append_nil] <;> decide

theorem finish_routines (w : World) (t : List Call) :
    ∀ r ∈ routines (finish w t), r ∈ finishRoutines := by
  unfold finish
  simp only []
  split_ifs <;>
    simp only [routines_cons, routines_nil, Call.routine, List.cons_append, List.nil_append,
        List.append_nil] <;> decide

/-! ## Lemmas on the observations -/

theorem sampleDurations_append (a b : List Call) :
    sampleDurations (a ++ b) = sampleDurations a ++ sampleDurations b := by
  induction a with
  | nil => rfl
  | cons c t ih => cases c <;> simp [sampleDurations, ih]

theorem compressResults_append (a b : List Call) :
    compressResults (a ++ b) = compressResults a ++ compressResults b := by
  induction a with
  | nil => rfl
  | cons c t ih => cases c <;> simp [compressResults, ih]

theorem addedDurations_append (a b : List Call) :
    addedDurations (a ++ b) = addedDurations a ++ addedDurations b := by
  induction a with
  | nil => rfl
  | cons c t ih =>
    cases c <;> simp [addedDurations, ih]
    split <;> simp

theorem sampleDurations_eq_nil (t : List Call) (h : Routine.AddMediaSample ∉ routines t) :
    sampleDurations t = [] := by
  induction t with
  | nil => rfl
  | cons c t ih =>
    rw [routines_cons, List.mem_cons, not_or] at h
    cases c <;> simp_all [sampleDurations, Call.routine]

theorem addedDurations_eq_nil (t : List Call) (h : Routine.AddMediaSample ∉ routines t) :
    addedDurations t = [] := by
  induction t with
  | nil => rfl
  | cons c t ih =>
    rw [routines_cons, List.mem_cons, not_or] at h
    cases c <;> simp_all [addedDurations, Call.routine]

theorem compressResults_eq_nil (t : List Call)
    (h1 : Routine.SCCompressSequenceFrame ∉ routines t)
    (h2 : Routine.SCCompressSequenceFrameAsync ∉ routines t) :
    compressResults t = [] := by
  induction t with
  | nil => rfl
  | cons c t ih =>
    rw [routines_cons, List.mem_cons, not_or] at h1 h2
    cases c <;> simp_all [compressResults, Call.routine]

/-- A routine outside the list `S` is not called by a trace whose routines are in `S`. -/
theorem not_mem_routines (S : List Routine) (t : List Call) (r : Routine)
    (h : ∀ x ∈ routines t, x ∈ S) (hr : r ∉ S) : r ∉ routines t :=
  fun hx => hr (h r hx)

theorem callsOnly_nil (S : List Routine) : callsOnly S [] := by
  simp [callsOnly, routines]

theorem callsOnly_cons (S : List Routine) (c : Call) (t : List Call) :
    callsOnly S (c :: t) ↔ c.routine ∈ S ∧ callsOnly S t := by
  simp [callsOnly, routines]

theorem callsOnly_append (S : List Routine) (a b : List Call) :
    callsOnly S (a ++ b) ↔ callsOnly S a ∧ callsOnly S b := by
  simp only [callsOnly, routines_append, List.mem_append]
  constructor
  · intro h
    exact ⟨fun r hr => h r (Or.inl hr), fun r hr => h r (Or.inr hr)⟩
  · rintro ⟨h1, h2⟩ r (hr | hr)
    · exact h1 r hr
    · exact h2 r hr

theorem callsOnly_mono (S T : List Routine) (t : List Call) (hST : ∀ r ∈ S, r ∈ T)
    (h : callsOnly S t) : callsOnly T t :=
  fun r hr => hST r (h r hr)

/-! ## Lemmas on the loop body -/

theorem asyncWait_callsOnly (cfg : Config) (w : World) (j : Nat) (fuel p : Nat) (v : Int) :
    callsOnly [Routine.WaitNextEvent, Routine.SCAsyncIdle] (asyncWait cfg w j fuel p v).1 := by
  induction fuel generalizing p v with
  | zero => unfold asyncWait; split <;> exact callsOnly_nil _
  | succ n ih =>
    unfold asyncWait
    split
    · simp only [callsOnly_cons, Call.routine]
      exact ⟨by decide, by decide, ih _ _⟩
    · exact callsOnly_nil _

theorem asyncWait_sampleDurations (cfg : Config) (w : World) (j : Nat) (fuel p : Nat) (v : Int) :
    sampleDurations (asyncWait cfg w j fuel p v).1 = [] :=
  sampleDurations_eq_nil _
    (not_mem_routines _ _ _ (asyncWait_callsOnly cfg w j fuel p v) (by decide))

theorem asyncWait_addedDurations (cfg : Config) (w : World) (j : Nat) (fuel p : Nat) (v : Int) :
    addedDurations (asyncWait cfg w j fuel p v).1 = [] :=
  addedDurations_eq_nil _
    (not_mem_routines _ _ _ (asyncWait_callsOnly cfg w j fuel p v) (by decide))

theorem asyncWait_compressResults (cfg : Config) (w : World) (j : Nat) (fuel p : Nat) (v : Int) :
    compressResults (asyncWait cfg w j fuel p v).1 = [] :=
  compressResults_eq_nil _
    (not_mem_routines _ _ _ (asyncWait_callsOnly cfg w j fuel p v) (by decide))
    (not_mem_routines _ _ _ (asyncWait_callsOnly cfg w j fuel p v) (by decide))

/-- The routines called when a frame is compressed and added (lines 613–642). -/
theorem compressAndAdd_callsOnly (cfg : Config) (w : World) (wf j : Nat) (time d : Int)
    (cp : Bool) :
    callsOnly [Routine.SCCompressSequenceFrame, Routine.NewICMCompletionProc,
      Routine.SCCompressSequenceFrameAsync, Routine.WaitNextEvent, Routine.SCAsyncIdle,
      Routine.AddMediaSample] (compressAndAdd cfg w wf j time d cp).trace := by
  have hw := callsOnly_mono _ [Routine.SCCompressSequenceFrame, Routine.NewICMCompletionProc,
      Routine.SCCompressSequenceFrameAsync, Routine.WaitNextEvent, Routine.SCAsyncIdle,
      Routine.AddMediaSample] _ (by decide)
      (asyncWait_callsOnly cfg w j wf 0 (deliver (w.completions j 0) cfg.kAsyncDefaultValue))
  unfold compressAndAdd
  simp only []
  split_ifs
  all_goals try split
  all_goals simp [callsOnly_cons, callsOnly_append, callsOnly_nil, Call.routine, hw]

/-- What one pass of lines 613–642 does, by the results of the compress request (`c`)
and of `AddMediaSample` (`a`). -/
theorem compressAndAdd_cases (cfg : Config) (w : World) (wf j : Nat) (time d : Int) (cp : Bool) :
    let s := compressAndAdd cfg w wf j time d cp
    compressResults s.trace = [w.compressSequenceFrame j] ∧
    ((w.compressSequenceFrame j ≠ noErr ∧ s.exit = StepExit.bail ∧
        sampleDurations s.trace = [] ∧ addedDurations s.trace = []) ∨
     (w.compressSequenceFrame j = noErr ∧ s.exit = StepExit.stopped Status.outOfFuel ∧
        sampleDurations s.trace = [] ∧ addedDurations s.trace = []) ∨
     (w.compressSequenceFrame j = noErr ∧ w.addMediaSample j ≠ noErr ∧ s.exit = StepExit.bail ∧
        sampleDurations s.trace = [d] ∧ addedDurations s.trace = []) ∨
     (w.compressSequenceFrame j = noErr ∧ w.addMediaSample j = noErr ∧
        s.exit = StepExit.next time ∧
        sampleDurations s.trace = [d] ∧ addedDurations s.trace = [d])) := by
  have h1 := asyncWait_sampleDurations cfg w j wf 0 (deliver (w.completions j 0) cfg.kAsyncDefaultValue)
  have h2 := asyncWait_addedDurations cfg w j wf 0 (deliver (w.completions j 0) cfg.kAsyncDefaultValue)
  have h3 := asyncWait_compressResults cfg w j wf 0 (deliver (w.completions j 0) cfg.kAsyncDefaultValue)
  unfold compressAndAdd
  simp only []
  split_ifs
  all_goals try split
  all_goals simp_all [sampleDurations_append, addedDurations_append, compressResults_append,
    sampleDurations, addedDurations, compressResults]

theorem planFrame_callsOnly (w : World) (N fn t : Int) :
    callsOnly planRoutines (planFrame w N fn t).1 := by
  unfold planFrame
  split <;> simp [callsOnly_cons, callsOnly_nil, Call.routine, planRoutines]

/-- One pass of the loop body either stops on a division by zero before any compress
request, or makes calls of `planRoutines` and then compresses and adds the frame
planned by `planFrame`. -/
theorem frameStep_cases (cfg : Config) (w : World) (N : Int) (wf j : Nat) (fn t : Int)
    (cp : Bool) :
    ((frameStep cfg w N wf j fn t cp).exit = StepExit.stopped Status.divideByZero ∧
      callsOnly planRoutines (frameStep cfg w N wf j fn t cp).trace) ∨
    (∃ time d pre, (planFrame w N fn t).2 = some (time, d) ∧ callsOnly planRoutines pre ∧
      frameStep cfg w N wf j fn t cp = (compressAndAdd cfg w wf j time d cp).after pre) := by
  have hp := planFrame_callsOnly w N fn t
  unfold frameStep
  simp only []
  split
  · left
    exact ⟨rfl, hp⟩
  · next time d hplan =>
    split_ifs with hr
    · split
      · left
        refine ⟨rfl, ?_⟩
        simp only [callsOnly_cons, callsOnly_append, callsOnly_nil, Call.routine, hp, true_and,
          and_true]
        decide
      · right
        refine ⟨time, d, _, hplan, ?_, rfl⟩
        simp only [callsOnly_cons, callsOnly_append, callsOnly_nil, Call.routine, hp, true_and,
          and_true]
        decide
    · right
      refine ⟨time, d, _, hplan, ?_, rfl⟩
      simp only [callsOnly_cons, callsOnly_append, callsOnly_nil, Call.routine, hp, true_and,
        and_true]
      decide

theorem planRoutines_sampleDurations (t : List Call) (h : callsOnly planRoutines t) :
    sampleDurations t = [] :=
  sampleDurations_eq_nil _ (not_mem_routines _ _ _ h (by decide))

theorem planRoutines_addedDurations (t : List Call) (h : callsOnly planRoutines t) :
    addedDurations t = [] :=
  addedDurations_eq_nil _ (not_mem_routines _ _ _ h (by decide))

theorem planRoutines_compressResults (t : List Call) (h : callsOnly planRoutines t) :
    compressResults t = [] :=
  compressResults_eq_nil _ (not_mem_routines _ _ _ h (by decide))
    (not_mem_routines _ _ _ h (by decide))

/-- What one pass of the loop body does, by the way it ends. -/
theorem frameStep_summary (cfg : Config) (w : World) (N : Int) (wf j : Nat) (fn t : Int)
    (cp : Bool) :
    let s := frameStep cfg w N wf j fn t cp
    (∃ st, s.exit = StepExit.stopped st ∧ sampleDurations s.trace = [] ∧
        addedDurations s.trace = [] ∧
        (compressResults s.trace = [] ∨ compressResults s.trace = [noErr])) ∨
    (s.exit = StepExit.bail ∧ w.compressSequenceFrame j ≠ noErr ∧
        compressResults s.trace = [w.compressSequenceFrame j] ∧
        sampleDurations s.trace = [] ∧ addedDurations s.trace = []) ∨
    (∃ time d, (planFrame w N fn t).2 = some (time, d) ∧
        s.exit = StepExit.bail ∧ w.compressSequenceFrame j = noErr ∧
        w.addMediaSample j ≠ noErr ∧ compressResults s.trace = [noErr] ∧
        sampleDurations s.trace = [d] ∧ addedDurations s.trace = []) ∨
    (∃ time d, (planFrame w N fn t).2 = some (time, d) ∧
        s.exit = StepExit.next time ∧ w.compressSequenceFrame j = noErr ∧
        w.addMediaSample j = noErr ∧ compressResults s.trace = [noErr] ∧
        sampleDurations s.trace = [d] ∧ addedDurations s.trace = [d]) := by
  intro s
  rcases frameStep_cases cfg w N wf j fn t cp with ⟨h1, h2⟩ | ⟨time, d, pre, hplan, hpre, hs⟩
  · left
    exact ⟨_, h1, planRoutines_sampleDurations _ h2, planRoutines_addedDurations _ h2,
      Or.inl (planRoutines_compressResults _ h2)⟩
  · have hc := compressAndAdd_cases cfg w wf j time d cp
    have e1 := planRoutines_sampleDurations _ hpre
    have e2 := planRoutines_addedDurations _ hpre
    have e3 := planRoutines_compressResults _ hpre
    have hs' : s = (compressAndAdd cfg w wf j time d cp).after pre := hs
    simp only [] at hc
    rcases hc with ⟨hcr, hc | hc | hc | hc⟩
    · right; left
      rw [hs']
      simp [Step.after, sampleDurations_append, addedDurations_append, compressResults_append,
        e1, e2, e3, hcr, hc]
    · left
      rw [hs']
      refine ⟨Status.outOfFuel, ?_⟩
      simp [Step.after, sampleDurations_append, addedDurations_append, compressResults_append,
        e1, e2, e3, hcr, hc]
    · right; right; left
      rw [hs']
      refine ⟨time, d, hplan, ?_⟩
      simp [Step.after, sampleDurations_append, addedDurations_append, compressResults_append,
        e1, e2, e3, hcr, hc]
    · right; right; right
      rw [hs']
      refine ⟨time, d, hplan, ?_⟩
      simp [Step.after, sampleDurations_append, addedDurations_append, compressResults_append,
        e1, e2, e3, hcr, hc]

theorem frameStep_callsOnly (cfg : Config) (w : World) (N : Int) (wf j : Nat) (fn t : Int)
    (cp : Bool) : callsOnly loopRoutines (frameStep cfg w N wf j fn t cp).trace := by
  rcases frameStep_cases cfg w N wf j fn t cp with ⟨_, h2⟩ | ⟨time, d, pre, _, hpre, hs⟩
  · exact callsOnly_mono _ _ _ (by decide) h2
  · rw [hs]
    simp only [Step.after, callsOnly_append]
    exact ⟨callsOnly_mono _ _ _ (by decide) hpre,
      callsOnly_mono _ _ _ (by decide) (compressAndAdd_callsOnly cfg w wf j time d cp)⟩

/-- The frame loop calls only the routines of `loopRoutines`. -/
theorem frameLoop_callsOnly (cfg : Config) (w : World) (N : Int) (wf fuel j : Nat) (fn t : Int)
    (cp : Bool) : callsOnly loopRoutines (frameLoop cfg w N wf fuel j fn t cp).trace := by
  induction fuel generalizing j fn t cp with
  | zero => unfold frameLoop; split <;> exact callsOnly_nil _
  | succ n ih =>
    unfold frameLoop
    split
    · simp only []
      split
      · simp only [Step.after, callsOnly_append]
        exact ⟨frameStep_callsOnly cfg w N wf j fn t cp, ih _ _ _ _⟩
      · exact frameStep_callsOnly cfg w N wf j fn t cp
    · exact callsOnly_nil _

/-! ## Lemmas on the frame loop and on whole runs -/

/-- When a compress request of the loop returns an error, it is the last one, the
loop leaves through `goto bail`, and every earlier pass added its sample. -/
theorem frameLoop_compress_error (cfg : Config) (w : World) (N : Int) (wf : Nat)
    (fuel j : Nat) (fn t : Int) (cp : Bool) (i : Nat) (e : Int)
    (h : (compressResults (frameLoop cfg w N wf fuel j fn t cp).trace)[i]? = some e)
    (he : e ≠ noErr) :
    (sampleDurations (frameLoop cfg w N wf fuel j fn t cp).trace).length = i ∧
    (addedDurations (frameLoop cfg w N wf fuel j fn t cp).trace).length = i ∧
    (compressResults (frameLoop cfg w N wf fuel j fn t cp).trace).length = i + 1 ∧
    (frameLoop cfg w N wf fuel j fn t cp).exit = StepExit.bail ∧
    e = w.compressSequenceFrame (j + i) := by
  induction fuel generalizing j fn t cp i with
  | zero =>
    unfold frameLoop at h
    split at h <;> simp [compressResults] at h
  | succ n ih =>
    unfold frameLoop at h ⊢
    split at h
    · rename_i hlt
      simp only [hlt, if_true]
      have hs := frameStep_summary cfg w N wf j fn t cp
      simp only [] at hs h ⊢
      split at h
      · rename_i time hexit
        rcases hs with ⟨st, hx, _⟩ | ⟨hx, _⟩ | ⟨_, _, _, hx, _⟩ |
          ⟨time', d, hp, hx, hc, ha, hcr, hsd, had⟩
        · rw [hexit] at hx; cases hx
        · rw [hexit] at hx; cases hx
        · rw [hexit] at hx; cases hx
        · simp only [Step.after, compressResults_append, sampleDurations_append,
            addedDurations_append, hcr, hsd, had, List.singleton_append, List.length_cons] at h ⊢
          cases i with
          | zero => simp at h; exact absurd h.symm he
          | succ i' =>
            simp only [List.getElem?_cons_succ] at h
            have := ih _ _ _ _ i' h
            refine ⟨by omega, by omega, by omega, this.2.2.2.1, ?_⟩
            rw [this.2.2.2.2]
            congr 1
            omega
      · rename_i hexit
        rcases hs with ⟨st, hx, hsd, had, hcr | hcr⟩ | ⟨hx, hc, hcr, hsd, had⟩ |
          ⟨_, _, _, hx, _, _, hcr, _⟩ | ⟨time', d, hp, hx, _⟩
        · rw [hcr] at h; simp at h
        · rw [hcr] at h
          cases i with
          | zero => simp at h; exact absurd h.symm he
          | succ i' => simp at h
        · rw [hcr] at h
          cases i with
          | zero =>
            simp at h
            simp [hsd, had, hcr, hx, h]
          | succ i' => simp at h
        · rw [hcr] at h
          cases i with
          | zero => simp at h; exact absurd h.symm he
          | succ i' => simp at h
        · exact absurd hx (hexit time')
    · simp [compressResults] at h

theorem setup_sampleDurations (cfg : Config) (w : World) :
    sampleDurations (setup cfg w).trace = [] :=
  sampleDurations_eq_nil _ (not_mem_routines _ _ _ (setup_routines cfg w) (by decide))

theorem bail_sampleDurations (cfg : Config) (l : Locals) (cp : Bool) :
    sampleDurations (bail cfg l cp) = [] :=
  sampleDurations_eq_nil _ (not_mem_routines _ _ _ (bail_routines cfg l cp) (by decide))

theorem finish_sampleDurations (w : World) (t : List Call) :
    sampleDurations (finish w t) = [] :=
  sampleDurations_eq_nil _ (not_mem_routines _ _ _ (finish_routines w t) (by decide))

theorem setup_addedDurations (cfg : Config) (w : World) :
    addedDurations (setup cfg w).trace = [] :=
  addedDurations_eq_nil _ (not_mem_routines _ _ _ (setup_routines cfg w) (by decide))

theorem bail_addedDurations (cfg : Config) (l : Locals) (cp : Bool) :
    addedDurations (bail cfg l cp) = [] :=
  addedDurations_eq_nil _ (not_mem_routines _ _ _ (bail_routines cfg l cp) (by decide))

theorem finish_addedDurations (w : World) (t : List Call) :
    addedDurations (finish w t) = [] :=
  addedDurations_eq_nil _ (not_mem_routines _ _ _ (finish_routines w t) (by decide))

theorem setup_compressResults (cfg : Config) (w : World) :
    compressResults (setup cfg w).trace = [] :=
  compressResults_eq_nil _ (not_mem_routines _ _ _ (setup_routines cfg w) (by decide))
    (not_mem_routines _ _ _ (setup_routines cfg w) (by decide))

theorem bail_compressResults (cfg : Config) (l : Locals) (cp : Bool) :
    compressResults (bail cfg l cp) = [] :=
  compressResults_eq_nil _ (not_mem_routines _ _ _ (bail_routines cfg l cp) (by decide))
    (not_mem_routines _ _ _ (bail_routines cfg l cp) (by decide))

theorem finish_compressResults (w : World) (t : List Call) :
    compressResults (finish w t) = [] :=
  compressResults_eq_nil _ (not_mem_routines _ _ _ (finish_routines w t) (by decide))
    (not_mem_routines _ _ _ (finish_routines w t) (by decide))

/-- The durations passed to `AddMediaSample` in a run are those passed by its frame loop. -/
theorem run_sampleDurations (cfg : Config) (w : World) (fuel : Nat) :
    sampleDurations (QTCmpr_CompressSequence cfg w fuel).trace =
      match (setup cfg w).exit with
      | .loop N => sampleDurations (frameLoop cfg w N fuel fuel 0 0 0 false).trace
      | _ => [] := by
  unfold QTCmpr_CompressSequence
  simp only []
  split
  · next h => simp [h, sampleDurations_append, setup_sampleDurations, bail_sampleDurations]
  · next h => simp [h, setup_sampleDurations]
  · next N h =>
    split <;> simp [h, sampleDurations_append, setup_sampleDurations, bail_sampleDurations,
      finish_sampleDurations]

/-- The samples added in a run are those added by its frame loop. -/
theorem run_addedDurations (cfg : Config) (w : World) (fuel : Nat) :
    addedDurations (QTCmpr_CompressSequence cfg w fuel).trace =
      match (setup cfg w).exit with
      | .loop N => addedDurations (frameLoop cfg w N fuel fuel 0 0 0 false).trace
      | _ => [] := by
  unfold QTCmpr_CompressSequence
  simp only []
  split
  · next h => simp [h, addedDurations_append, setup_addedDurations, bail_addedDurations]
  · next h => simp [h, setup_addedDurations]
  · next N h =>
    split <;> simp [h, addedDurations_append, setup_addedDurations, bail_addedDurations,
      finish_addedDurations]

/-- The compress requests of a run are those of its frame loop. -/
theorem run_compressResults (cfg : Config) (w : World) (fuel : Nat) :
    compressResults (QTCmpr_CompressSequence cfg w fuel).trace =
      match (setup cfg w).exit with
      | .loop N => compressResults (frameLoop cfg w N fuel fuel 0 0 0 false).trace
      | _ => [] := by
  unfold QTCmpr_CompressSequence
  simp only []
  split
  · next h => simp [h, compressResults_append, setup_compressResults, bail_compressResults]
  · next h => simp [h, setup_compressResults]
  · next N h =>
    split <;> simp [h, compressResults_append, setup_compressResults, bail_compressResults,
      finish_compressResults]

/-- A routine of `finishRoutines` is called only in runs whose frame loop ran to its end. -/
theorem run_finish_routine (cfg : Config) (w : World) (fuel : Nat) (r : Routine)
    (hr : r ∈ finishRoutines) (h : r ∈ routines (QTCmpr_CompressSequence cfg w fuel).trace) :
    ∃ N time, (setup cfg w).exit = SetupExit.loop N ∧
      (frameLoop cfg w N fuel fuel 0 0 0 false).exit = StepExit.next time := by
  have hS : ∀ r ∈ finishRoutines, r ∉ setupRoutines := by decide
  have hL : ∀ r ∈ finishRoutines, r ∉ loopRoutines := by decide
  have hB : ∀ r ∈ finishRoutines, r ∉ bailRoutines := by decide
  have h1 := not_mem_routines _ _ r (setup_routines cfg w) (hS r hr)
  unfold QTCmpr_CompressSequence at h
  simp only [] at h
  split at h
  · simp only [routines_append, List.mem_append] at h
    rcases h with h | h
    · exact absurd h h1
    · exact absurd h (not_mem_routines _ _ r (bail_routines _ _ _) (hB r hr))
  · exact absurd h h1
  · rename_i N hN
    have h2 := not_mem_routines _ _ r (frameLoop_callsOnly cfg w N fuel fuel 0 0 0 false) (hL r hr)
    split at h
    · simp only [routines_append, List.mem_append] at h
      rcases h with h | h
      · exact absurd h h1
      · exact absurd h h2
    · simp only [routines_append, List.mem_append] at h
      rcases h with (h | h) | h
      · exact absurd h h1
      · exact absurd h h2
      · exact absurd h (not_mem_routines _ _ r (bail_routines _ _ _) (hB r hr))
    · rename_i time hx
      exact ⟨N, time, hN, hx⟩

/-! ## C2 : the sample time of a resampled frame -/

/-- With at least 2 frames, and a product `myFrameNum * mySrcMovieDuration` that fits
a `long`, the resampling arithmetic is defined: the sample time is
`i * totalDuration / (N - 1)` and the duration `totalDuration / N`. -/
theorem resamplePlan_of_two_le (i D N : Int) (hN : 2 ≤ N)
    (h1 : -2147483648 ≤ i * D) (h2 : i * D ≤ 2147483647) :
    resamplePlan i D N = some (Int.tdiv (i * D) (N - 1), Int.tdiv D N) := by
  have hw : wrapLong (i * D) = i * D := by unfold wrapLong; omega
  unfold resamplePlan
  rw [if_neg (by omega), if_neg (by omega), hw]

/-- C2, at the failing input: a movie of duration 1000 and time scale 1000
resampled at 1 frame per second has a frame count of 1, and the sample time of
its only frame, `0 * 1000 / (1 - 1)`, divides by zero (as does the sample time of
frame `i` of any movie resampled to one frame); the run stops there, before any
compress request. -/
theorem C2_single_frame_divides_by_zero :
    frameCountOf (resampleWorld 1000 1000 65536) = some 1 ∧
    (∀ i D : Int, resamplePlan i D 1 = none) ∧
    (QTCmpr_CompressSequence syncBuild (resampleWorld 1000 1000 65536) 10).status =
      Status.divideByZero ∧
    compressResults (QTCmpr_CompressSequence syncBuild (resampleWorld 1000 1000 65536) 10).trace
      = [] := by
  refine ⟨by decide, ?_, by decide, by decide⟩
  intro i D
  simp [resamplePlan]

/-! ## C3 : the duration of a resampled sample -/

/-- C5: if the `k`-th compress request of a run (`k ≥ 1`) returns an error `e`, then
`AddMediaSample` was called exactly `k - 1` times and added `k - 1` samples, no
further compress request is made (the failed frame is not retried: the run made
exactly `k` requests), and `EndMediaEdits`, `InsertMediaIntoTrack` and
`AddMovieResource` are never called.  The request is the one of iteration `k - 1`. -/
theorem C5_compress_failure_aborts (cfg : Config) (w : World) (fuel k : Nat) (e : Int)
    (hk : 1 ≤ k)
    (h : (compressResults (QTCmpr_CompressSequence cfg w fuel).trace)[k - 1]? = some e)
    (he : e ≠ noErr) :
    (sampleDurations (QTCmpr_CompressSequence cfg w fuel).trace).length = k - 1 ∧
    (addedDurations (QTCmpr_CompressSequence cfg w fuel).trace).length = k - 1 ∧
    (compressResults (QTCmpr_CompressSequence cfg w fuel).trace).length = k ∧
    Routine.EndMediaEdits ∉ routines (QTCmpr_CompressSequence cfg w fuel).trace ∧
    Routine.InsertMediaIntoTrack ∉ routines (QTCmpr_CompressSequence cfg w fuel).trace ∧
    Routine.AddMovieResource ∉ routines (QTCmpr_CompressSequence cfg w fuel).trace ∧
    e = w.compressSequenceFrame (k - 1) := by
  have key : ∃ N, (setup cfg w).exit = SetupExit.loop N := by
    rw [run_compressResults] at h
    split at h
    · next N hN => exact ⟨N, hN⟩
    · simp at h
  obtain ⟨N, hN⟩ := key
  have hfin : ∀ r ∈ finishRoutines, r ∉ routines (QTCmpr_CompressSequence cfg w fuel).trace := by
    intro r hr hmem
    obtain ⟨M, time, hM, hx⟩ := run_finish_routine cfg w fuel r hr hmem
    rw [hN] at hM
    cases hM
    simp only [run_compressResults, hN] at h
    have := (frameLoop_compress_error cfg w N fuel fuel 0 0 0 false (k - 1) e h he).2.2.2.1
    rw [hx] at this
    cases this
  simp only [run_compressResults, hN] at h
  simp only [run_sampleDurations, run_addedDurations, run_compressResults, hN]
  have hl := frameLoop_compress_error cfg w N fuel fuel 0 0 0 false (k - 1) e h he
  refine ⟨hl.1, hl.2.1, by have := hl.2.2.1; omega, hfin _ (by decide), hfin _ (by decide),
    hfin _ (by decide), ?_⟩
  have := hl.2.2.2.2
  simpa using this

/-- C5 at a run of 3 frames whose second compress request returns the error -8960:
one sample was added, two requests were made, nothing was finalized. -/
theorem C5_compress_failure_aborts_witness :
    (compressResults (QTCmpr_CompressSequence syncBuild
      { okWorld with compressSequenceFrame := fun j => if j = 1 then -8960 else 0 } 5).trace)
      = [0, -8960] ∧
    (sampleDurations (QTCmpr_CompressSequence syncBuild
      { okWorld with compressSequenceFrame := fun j => if j = 1 then -8960 else 0 } 5).trace).length
      = 2 - 1 ∧
    Routine.EndMediaEdits ∉ routines (QTCmpr_CompressSequence syncBuild
      { okWorld with compressSequenceFrame := fun j => if j = 1 then -8960 else 0 } 5).trace :=
  ⟨by decide,
   (C5_compress_failure_aborts syncBuild
      { okWorld with compressSequenceFrame := fun j => if j = 1 then -8960 else 0 } 5 2 (-8960)
      (by decide) (by decide) (by decide)).1,
   (C5_compress_failure_aborts syncBuild
      { okWorld with compressSequenceFrame := fun j => if j = 1 then -8960 else 0 } 5 2 (-8960)
      (by decide) (by decide) (by decide)).2.2.2.1⟩

/-! ## Lemmas on runs that reach the loop -/

theorem guard_of_loop (calls : List Call) (fails : Prop) [Decidable fails] (l : Locals)
    (g : ProcStruct) (rest : Setup) (N : Int)
    (h : (guard calls fails l g rest).exit = SetupExit.loop N) :
    guard calls fails l g rest = rest.after calls := by
  have := (guard_exit_loop calls fails l g rest N).1 h
  simp [guard, this.1]

theorem after_exit (pre : List Call) (s : Setup) : (s.after pre).exit = s.exit := rfl

/-- When the code before the loop reaches the loop, every test before it passed. -/
theorem setup_passed (cfg : Config) (w : World) (N : Int)
    (h : (setup cfg w).exit = SetupExit.loop N) :
    (w.theWindowObject = true ∧ w.fMovie = true ∧ w.videoTrack = true ∧ w.component = true ∧
      w.posterPict = true ∧ w.newGWorld = noErr ∧ w.lockPixels = true ∧
      w.getTemporalSettings = noErr ∧ w.requestSequenceSettings ≠ scUserCancelled) ∧
    (w.fileSelected = true ∧ ¬ (w.isReplacing = true ∧ w.deleteMovieFile ≠ noErr) ∧
      w.createMovieFile = noErr ∧ w.newMovieTrack = true ∧ w.newTrackMedia = true ∧
      w.newHandleClear = true ∧ w.beginMediaEdits = noErr ∧ w.compressSequenceBegin = noErr) := by
  have hc := setup_exit_loop cfg w N h
  simp only [setup, guard_exit_loop, countFrames, hc, after_exit, createTarget] at h
  simp only [ne_eq, Bool.not_eq_false, Decidable.not_not] at h
  obtain ⟨h1, h2, h3, h4, h5, h6, h7, h8, h9, k1, k2, k3, k4, k5, k6, k7, k8, -⟩ := h
  exact ⟨⟨h1, h2, h3, h4, h5, h6, h7, h8, h9⟩, k1, k2, k3, k4, k5, k6, k7, k8⟩

theorem guard_pass (calls : List Call) (fails : Prop) [Decidable fails] (l : Locals)
    (g : ProcStruct) (rest : Setup) (h : ¬ fails) :
    guard calls fails l g rest = rest.after calls := by
  simp [guard, h]

theorem after_locals (pre : List Call) (s : Setup) : (s.after pre).locals = s.locals := rfl

theorem after_trace (pre : List Call) (s : Setup) : (s.after pre).trace = pre ++ s.trace := rfl

theorem mem_routines_append_left (r : Routine) (a b : List Call) (h : r ∈ routines a) :
    r ∈ routines (a ++ b) := by
  rw [routines_append]; exact List.mem_append_left _ h

theorem mem_routines_append_right (r : Routine) (a b : List Call) (h : r ∈ routines b) :
    r ∈ routines (a ++ b) := by
  rw [routines_append]; exact List.mem_append_right _ h

/-- When the code before the loop reaches the loop, the component is open, the
GWorld is allocated, and the pixels were locked, the movie file created, the
media edits begun and the compression sequence begun. -/
theorem setup_reached (cfg : Config) (w : World) (N : Int)
    (h : (setup cfg w).exit = SetupExit.loop N) :
    (setup cfg w).locals = ⟨true, true, true, w.movieTime⟩ ∧
    (setup cfg w).gProcStruct = procsAfterInstall cfg w ∧
    Routine.LockPixels ∈ routines (setup cfg w).trace ∧
    Routine.CreateMovieFile ∈ routines (setup cfg w).trace ∧
    Routine.BeginMediaEdits ∈ routines (setup cfg w).trace ∧
    Routine.SCCompressSequenceBegin ∈ routines (setup cfg w).trace := by
  have hc := setup_exit_loop cfg w N h
  obtain ⟨⟨h1, h2, h3, h4, h5, h6, h7, h8, h9⟩, k1, k2, k3, k4, k5, k6, k7, k8⟩ :=
    setup_passed cfg w N h
  unfold setup
  simp only []
  rw [guard_pass _ _ _ _ _ (by simp [h1]), guard_pass _ _ _ _ _ (by simp [h2]),
      guard_pass _ _ _ _ _ (by simp [h3]), guard_pass _ _ _ _ _ (by simp [h4]),
      guard_pass _ _ _ _ _ (by simp [h5]), guard_pass _ _ _ _ _ (by simp [h6]),
      guard_pass _ _ _ _ _ (by simp [h7]), guard_pass _ _ _ _ _ (by simp [h8]),
      guard_pass _ _ _ _ _ (by simp [h9])]
  unfold countFrames
  simp only [hc]
  unfold createTarget
  simp only []
  rw [guard_pass _ _ _ _ _ (by simp [k1]), guard_pass _ _ _ _ _ k2,
      guard_pass _ _ _ _ _ (by simp [k3]), guard_pass _ _ _ _ _ (by simp [k4]),
      guard_pass _ _ _ _ _ (by simp [k5]), guard_pass _ _ _ _ _ (by simp [k6]),
      guard_pass _ _ _ _ _ (by simp [k7]), guard_pass _ _ _ _ _ (by simp [k8])]
  simp only [after_locals, after_trace, Setup.after, routines_append, List.mem_append,
    routines_cons, routines_nil, Call.routine, List.mem_cons, List.mem_singleton, true_or, or_true,
    and_self]

theorem frameLoop_zero_frames (cfg : Config) (w : World) (wf fuel j : Nat) (t : Int) (cp : Bool) :
    frameLoop cfg w 0 wf fuel j 0 t cp = ⟨[], cp, StepExit.next t⟩ := by
  cases fuel <;> simp [frameLoop]

/-! ## C4 : a frame count of zero -/

/-- C4, as stated, fails: with a blank frame rate and a track of 0 frames, every
call succeeding, the frame count is 0 and the run nevertheless calls
`SCCompressSequenceBegin`, creates the movie file, and finalizes it
(`AddMovieResource`, `CloseMovieFile`) before it returns. -/
theorem C4_empty_sequence_is_not_reported :
    frameCountOf emptyTrackWorld = some 0 ∧
    Routine.SCCompressSequenceBegin ∈
      routines (QTCmpr_CompressSequence syncBuild emptyTrackWorld 0).trace ∧
    Routine.CreateMovieFile ∈ routines (QTCmpr_CompressSequence syncBuild emptyTrackWorld 0).trace ∧
    Routine.AddMovieResource ∈ routines (QTCmpr_CompressSequence syncBuild emptyTrackWorld 0).trace ∧
    Routine.CloseMovieFile ∈ routines (QTCmpr_CompressSequence syncBuild emptyTrackWorld 0).trace ∧
    (QTCmpr_CompressSequence syncBuild emptyTrackWorld 0).status = Status.returned := by
  decide

/-- C4, amended: when the code before the loop reaches the loop with a frame count
of 0 (which happens only with a blank frame rate and a track of 0 frames), the run
does not abort: it has created the movie file and called
`SCCompressSequenceBegin`, it makes no compress request and adds no sample, it
calls `SCCompressSequenceEnd` and `EndMediaEdits`, then, `EndMediaEdits`
succeeding, inserts the (empty) media into the track and calls `AddMovieResource`,
and, this one succeeding too, `CloseMovieFile`; and it returns. -/
theorem C4_empty_sequence_runs (cfg : Config) (w : World) (fuel : Nat)
    (h : (setup cfg w).exit = SetupExit.loop 0) :
    (w.frameRate = 0 ∧ w.frameCount = 0) ∧
    (QTCmpr_CompressSequence cfg w fuel).status = Status.returned ∧
    Routine.CreateMovieFile ∈ routines (QTCmpr_CompressSequence cfg w fuel).trace ∧
    Routine.SCCompressSequenceBegin ∈ routines (QTCmpr_CompressSequence cfg w fuel).trace ∧
    compressResults (QTCmpr_CompressSequence cfg w fuel).trace = [] ∧
    sampleDurations (QTCmpr_CompressSequence cfg w fuel).trace = [] ∧
    Routine.SCCompressSequenceEnd ∈ routines (QTCmpr_CompressSequence cfg w fuel).trace ∧
    Routine.EndMediaEdits ∈ routines (QTCmpr_CompressSequence cfg w fuel).trace ∧
    (w.endMediaEdits = noErr →
      Routine.InsertMediaIntoTrack ∈ routines (QTCmpr_CompressSequence cfg w fuel).trace ∧
      Routine.AddMovieResource ∈ routines (QTCmpr_CompressSequence cfg w fuel).trace ∧
      (w.addMovieResource = noErr →
        Routine.CloseMovieFile ∈ routines (QTCmpr_CompressSequence cfg w fuel).trace)) := by
  obtain ⟨_, _, _, hcreate, _, hbegin⟩ := setup_reached cfg w 0 h
  have hcr := run_compressResults cfg w fuel
  have hsd := run_sampleDurations cfg w fuel
  simp only [h, frameLoop_zero_frames, compressResults, sampleDurations] at hcr hsd
  have hrun : QTCmpr_CompressSequence cfg w fuel =
      ⟨(setup cfg w).trace ++ [] ++ finish w [] ++ bail cfg (setup cfg w).locals false,
        Status.returned, (setup cfg w).gProcStruct⟩ := by
    unfold QTCmpr_CompressSequence
    simp only [h, frameLoop_zero_frames]
  have hfin : ∀ r, r ∈ routines (finish w []) →
      r ∈ routines (QTCmpr_CompressSequence cfg w fuel).trace := by
    intro r hr
    rw [hrun]
    exact mem_routines_append_left _ _ _ (mem_routines_append_right _ _ _ hr)
  have hset : ∀ r, r ∈ routines (setup cfg w).trace →
      r ∈ routines (QTCmpr_CompressSequence cfg w fuel).trace := by
    intro r hr
    rw [hrun]
    exact mem_routines_append_left _ _ _ (mem_routines_append_left _ _ _
      (mem_routines_append_left _ _ _ hr))
  have hmode : w.frameRate = 0 ∧ w.frameCount = 0 := by
    have hc := setup_exit_loop cfg w 0 h
    by_cases h1 : w.frameRate = 0
    · simp only [frameCountOf, h1, ne_eq, not_true_eq_false, if_false, Option.some.injEq] at hc
      exact ⟨h1, hc⟩
    · exfalso
      simp only [frameCountOf, h1, ne_eq, not_false_eq_true, if_true] at hc
      exact resampleNumFrames_ne_zero _ _ _ hc
  refine ⟨hmode, by rw [hrun], hset _ hcreate, hset _ hbegin, hcr, hsd, hfin _ ?_, hfin _ ?_, ?_⟩
  · unfold finish; simp only []; split_ifs <;> simp [routines, Call.routine]
  · unfold finish; simp only []; split_ifs <;> simp [routines, Call.routine]
  · intro he
    refine ⟨hfin _ ?_, hfin _ ?_, fun ha => hfin _ ?_⟩
    · unfold finish; simp [he, routines, Call.routine]; split_ifs <;> simp
    · unfold finish; simp [he, routines, Call.routine]; split_ifs <;> simp
    · unfold finish; simp [he, ha, routines, Call.routine]

/-- C4, amended, at the track with no frame: the code before the loop reaches the
loop with a count of 0 and the run ends with `CloseMovieFile` called. -/
theorem C4_empty_sequence_runs_witness :
    (setup asyncBuild emptyTrackWorld).exit = SetupExit.loop 0 ∧
    Routine.SCCompressSequenceBegin ∈
      routines (QTCmpr_CompressSequence asyncBuild emptyTrackWorld 3).trace ∧
    compressResults (QTCmpr_CompressSequence asyncBuild emptyTrackWorld 3).trace = [] :=
  ⟨by decide,
   (C4_empty_sequence_runs asyncBuild emptyTrackWorld 3 (by decide)).2.2.2.1,
   (C4_empty_sequence_runs asyncBuild emptyTrackWorld 3 (by decide)).2.2.2.2.1⟩

/-! ## C6 : an error delivered by the completion procedure -/

/-- C6, at the failing input: in an asynchronous build, with 2 frames, the completion
procedure delivers the error -8960 for the first frame (the waiting loop ends with
`myICMComplProcErr = -8960`); the run nevertheless passes the frame to
`AddMediaSample`, goes on to request the second frame, adds it too, and finalizes the
movie. -/
theorem C6_async_error_is_not_checked :
    (asyncWait asyncBuild asyncErrorWorld 0 5 0
      (deliver (asyncErrorWorld.completions 0 0) asyncBuild.kAsyncDefaultValue)).2
      = some (-8960) ∧
    compressResults (QTCmpr_CompressSequence asyncBuild asyncErrorWorld 5).trace = [0, 0] ∧
    sampleDurations (QTCmpr_CompressSequence asyncBuild asyncErrorWorld 5).trace = [100, 100] ∧
    addedDurations (QTCmpr_CompressSequence asyncBuild asyncErrorWorld 5).trace = [100, 100] ∧
    Routine.CloseMovieFile ∈ routines (QTCmpr_CompressSequence asyncBuild asyncErrorWorld 5).trace ∧
    (QTCmpr_CompressSequence asyncBuild asyncErrorWorld 5).status = Status.returned := by
  decide

/-! ## C7 : closing the compression session -/

/-- C7, at the failing inputs: when the second compress request fails, and likewise
when `AddMediaSample` fails for the first frame, the run has called
`SCCompressSequenceBegin` (which succeeded) and it returns without ever calling
`SCCompressSequenceEnd`, although it closes the component and disposes of the
GWorld. -/
theorem C7_session_left_open_on_failure :
    (Routine.SCCompressSequenceBegin ∈
        routines (QTCmpr_CompressSequence syncBuild compressFailWorld 5).trace ∧
      Routine.SCCompressSequenceEnd ∉
        routines (QTCmpr_CompressSequence syncBuild compressFailWorld 5).trace ∧
      Routine.CloseComponent ∈
        routines (QTCmpr_CompressSequence syncBuild compressFailWorld 5).trace ∧
      Routine.DisposeGWorld ∈
        routines (QTCmpr_CompressSequence syncBuild compressFailWorld 5).trace ∧
      (QTCmpr_CompressSequence syncBuild compressFailWorld 5).status = Status.returned) ∧
    (Routine.SCCompressSequenceBegin ∈
        routines (QTCmpr_CompressSequence syncBuild addFailWorld 5).trace ∧
      Routine.SCCompressSequenceEnd ∉
        routines (QTCmpr_CompressSequence syncBuild addFailWorld 5).trace ∧
      Routine.CloseComponent ∈
        routines (QTCmpr_CompressSequence syncBuild addFailWorld 5).trace ∧
      Routine.DisposeGWorld ∈
        routines (QTCmpr_CompressSequence syncBuild addFailWorld 5).trace ∧
      (QTCmpr_CompressSequence syncBuild addFailWorld 5).status = Status.returned) := by
  decide

/-! ## C8 : releasing what was acquired -/

/-- C8, at the failing input: when `SCCompressSequenceBegin` fails, the run has
locked the pixels, created the movie file and begun the media edits, and it returns
without calling `UnlockPixels`, `CloseMovieFile` or `EndMediaEdits`; what it calls
after the failure is the component's close, then the GWorld's disposal, then the
release of the two strings, which is not the reverse of the order of acquisition
(strings, component, GWorld). -/
theorem C8_bail_does_not_release :
    Routine.LockPixels ∈ routines (QTCmpr_CompressSequence syncBuild beginFailWorld 5).trace ∧
    Routine.CreateMovieFile ∈ routines (QTCmpr_CompressSequence syncBuild beginFailWorld 5).trace ∧
    Routine.BeginMediaEdits ∈ routines (QTCmpr_CompressSequence syncBuild beginFailWorld 5).trace ∧
    Routine.UnlockPixels ∉ routines (QTCmpr_CompressSequence syncBuild beginFailWorld 5).trace ∧
    Routine.CloseMovieFile ∉ routines (QTCmpr_CompressSequence syncBuild beginFailWorld 5).trace ∧
    Routine.EndMediaEdits ∉ routines (QTCmpr_CompressSequence syncBuild beginFailWorld 5).trace ∧
    (routines (QTCmpr_CompressSequence syncBuild beginFailWorld 5).trace).drop 44 =
      [Routine.SCCompressSequenceBegin, Routine.CloseComponent, Routine.SetMovieGWorld,
       Routine.SetMovieTimeValue, Routine.SetGWorld, Routine.DisposeGWorld, Routine.free,
       Routine.free] := by
  decide

/-! ## C9 : cancelling the settings dialog -/

/-- C9, at the failing input: when the user cancels the dialog of
`QTCmpr_CompressSequence`, no session is opened and no file is created, the
component is closed and the GWorld disposed of, but the filter procedure installed
by `QTCmpr_InstallExtendedProcs` is never disposed of (`gProcStruct.filterProc` is
still allocated when the function returns) and the pixels locked are never
unlocked; `QTCmpr_CompressImage`, in the same situation, disposes of the filter
procedure and unlocks the pixels. -/
theorem C9_cancel_leaves_resources :
    (Routine.SCCompressSequenceBegin ∉
        routines (QTCmpr_CompressSequence syncBuild cancelWorld 5).trace ∧
      Routine.CreateMovieFile ∉ routines (QTCmpr_CompressSequence syncBuild cancelWorld 5).trace ∧
      Routine.CloseComponent ∈ routines (QTCmpr_CompressSequence syncBuild cancelWorld 5).trace ∧
      Routine.DisposeGWorld ∈ routines (QTCmpr_CompressSequence syncBuild cancelWorld 5).trace) ∧
    (Routine.NewSCModalFilterUPP ∈
        routines (QTCmpr_CompressSequence syncBuild cancelWorld 5).trace ∧
      Routine.DisposeSCModalFilterUPP ∉
        routines (QTCmpr_CompressSequence syncBuild cancelWorld 5).trace ∧
      (QTCmpr_CompressSequence syncBuild cancelWorld 5).gProcStruct.filterProc = true ∧
      Routine.LockPixels ∈ routines (QTCmpr_CompressSequence syncBuild cancelWorld 5).trace ∧
      Routine.UnlockPixels ∉ routines (QTCmpr_CompressSequence syncBuild cancelWorld 5).trace) ∧
    (Routine.NewSCModalFilterUPP ∈ routines (QTCmpr_CompressImage syncBuild cancelImageWorld).trace ∧
      Routine.DisposeSCModalFilterUPP ∈
        routines (QTCmpr_CompressImage syncBuild cancelImageWorld).trace ∧
      (QTCmpr_CompressImage syncBuild cancelImageWorld).gProcStruct.filterProc = false ∧
      Routine.LockPixels ∈ routines (QTCmpr_CompressImage syncBuild cancelImageWorld).trace ∧
      Routine.UnlockPixels ∈ routines (QTCmpr_CompressImage syncBuild cancelImageWorld).trace) := by
  decide

/-! ## Lemmas on loops that run to their end -/

theorem wrapShort_le (x : Int) : wrapShort x ≤ 32767 := by
  unfold wrapShort; omega

theorem wrapShort_ge (x : Int) : -32768 ≤ wrapShort x := by
  unfold wrapShort; omega

theorem wrapShort_eq (x : Int) (h1 : -32768 ≤ x) (h2 : x ≤ 32767) : wrapShort x = x := by
  unfold wrapShort; omega

theorem after_exit_step (pre : List Call) (s : Step) : (s.after pre).exit = s.exit := rfl

/-- With more than 32767 frames to compress the loop condition `myFrameNum <
myNumFrames` holds for every value of the `short` counter: the loop never runs to
its end. -/
theorem frameLoop_never_finishes (cfg : Config) (w : World) (N : Int) (wf : Nat)
    (hN : 32767 < N) (fuel j : Nat) (fn t : Int) (cp : Bool) (hfn : fn ≤ 32767) (time : Int) :
    (frameLoop cfg w N wf fuel j fn t cp).exit ≠ StepExit.next time := by
  induction fuel generalizing j fn t cp with
  | zero =>
    unfold frameLoop
    rw [if_pos (by omega)]
    simp
  | succ n ih =>
    unfold frameLoop
    rw [if_pos (by omega)]
    simp only []
    split
    · rw [after_exit_step]
      exact ih _ _ _ _ (wrapShort_le _)
    · next hx => exact hx time

/-- A loop that runs to its end has added one sample in each of its iterations, as
many as the frames that remained. -/
theorem frameLoop_finished (cfg : Config) (w : World) (N : Int) (wf : Nat)
    (fuel j : Nat) (fn t : Int) (cp : Bool) (h1 : -32768 ≤ fn) (h2 : fn ≤ 32767) (time : Int)
    (h : (frameLoop cfg w N wf fuel j fn t cp).exit = StepExit.next time) :
    N ≤ 32767 ∧
    addedDurations (frameLoop cfg w N wf fuel j fn t cp).trace =
      sampleDurations (frameLoop cfg w N wf fuel j fn t cp).trace ∧
    (sampleDurations (frameLoop cfg w N wf fuel j fn t cp).trace).length = (N - fn).toNat := by
  have hN : N ≤ 32767 := by
    by_contra hc
    exact frameLoop_never_finishes cfg w N wf (by omega) fuel j fn t cp h2 time h
  refine ⟨hN, ?_⟩
  induction fuel generalizing j fn t cp with
  | zero =>
    unfold frameLoop at h ⊢
    split at h
    · simp at h
    · next hlt =>
      simp only [hlt, if_false, addedDurations, sampleDurations, List.length_nil, true_and]
      omega
  | succ n ih =>
    unfold frameLoop at h ⊢
    split at h
    · next hlt =>
      simp only [hlt, if_true]
      have hs := frameStep_summary cfg w N wf j fn t cp
      simp only [] at hs h ⊢
      split at h
      · next time' hexit =>
        rw [after_exit_step] at h
        have hw : wrapShort (fn + 1) = fn + 1 := wrapShort_eq _ (by omega) (by omega)
        rw [hw] at h ⊢
        have := ih _ _ _ _ (by omega) (by omega) h
        rcases hs with ⟨st, hx, _⟩ | ⟨hx, _⟩ | ⟨_, _, _, hx, _⟩ |
          ⟨time'', d, hp, hx, hc, ha, hcr, hsd, had⟩
        · rw [hexit] at hx; cases hx
        · rw [hexit] at hx; cases hx
        · rw [hexit] at hx; cases hx
        · simp only [Step.after, sampleDurations_append, addedDurations_append, hsd, had,
            this.1, List.length_append, List.length_singleton, this.2, true_and]
          omega
      · next hexit => exact absurd h (hexit time)
    · next hlt =>
      simp only [hlt, if_false, addedDurations, sampleDurations, List.length_nil, true_and]
      omega

/-- C11, as stated, fails: for a compressed image of 5 bytes (in a handle of 8 bytes)
with an image description of 4 bytes, every call succeeding, the file left holds the
5 bytes of the payload and nothing else: the image description is not in the file,
only its `cType` became the file type. -/
theorem C11_description_is_not_written :
    (QTCmpr_PromptUserForDiskFileAndSaveCompressed okSaveWorld).file =
      some ⟨1785750887, [10, 20, 30, 40, 50], 5, false⟩ ∧
    ([10, 20, 30, 40, 50] : List Nat) ≠ [10, 20, 30, 40, 50] ++ [1, 2, 3, 4] := by
  decide

/-- C11, amended: given handles that are not `NULL` with `dataSize` at most the
size of the handle, a selected file and File Manager calls that all succeed, the
function leaves a closed file whose type is the description's `cType` and whose
data fork is exactly the first `dataSize` bytes of the handle, with its end-of-file
at `dataSize`; the image description itself is not written. -/
theorem C11_payload_only (w : SaveWorld) (handle : List Nat) (desc : ImageDescription)
    (hh : w.theHandle = some handle) (hd : w.theDesc = some desc)
    (hsize : desc.dataSize ≤ handle.length) (hsel : w.fileSelected = true)
    (hok : w.fspCreate = noErr ∧ w.fspOpenDF = noErr ∧ w.setFPosStart = noErr ∧
      w.fsWrite = noErr ∧ w.setFPosEnd = noErr ∧ w.setEOF = noErr ∧ w.fsClose = noErr) :
    (QTCmpr_PromptUserForDiskFileAndSaveCompressed w).file =
      some ⟨desc.cType, handle.take desc.dataSize.toNat, desc.dataSize.toNat, false⟩ ∧
    (handle.take desc.dataSize.toNat).length = desc.dataSize.toNat := by
  obtain ⟨h1, h2, h3, h4, h5, h6, h7⟩ := hok
  have hlen : (handle.take desc.dataSize.toNat).length = desc.dataSize.toNat := by
    rw [List.length_take]
    omega
  refine ⟨?_, hlen⟩
  have hgt : ¬ desc.dataSize > handle.length := by omega
  simp [QTCmpr_PromptUserForDiskFileAndSaveCompressed, hh, hd, hgt, hsel, saveFile,
    SaveState.step, h1, h2, h3, h4, h5, h6, h7, noErr, DataFile.create, DataFile.openDF,
    DataFile.setFPos, DataFile.write, DataFile.setEOF, DataFile.close, hlen]

/-- C11, amended, at the image of 5 bytes in a handle of 8 bytes. -/
theorem C11_payload_only_witness :
    (QTCmpr_PromptUserForDiskFileAndSaveCompressed okSaveWorld).file =
      some ⟨1785750887, [10, 20, 30, 40, 50], 5, false⟩ :=
  (C11_payload_only okSaveWorld [10, 20, 30, 40, 50, 0, 0, 0] ⟨1785750887, 5, [1, 2, 3, 4]⟩
    rfl rfl (by decide) rfl (by decide)).1

/-! ## Lemmas on a loop whose every pass succeeds -/

theorem queries_append (a b : List Call) : queries (a ++ b) = queries a ++ queries b := by
  induction a with
  | nil => rfl
  | cons c t ih => cases c <;> simp [queries, ih]

theorem seekTimes_append (a b : List Call) : seekTimes (a ++ b) = seekTimes a ++ seekTimes b := by
  induction a with
  | nil => rfl
  | cons c t ih => cases c <;> simp [seekTimes, ih]

/-- In a steady world a pass of the loop body runs to its end: it queries the next
interesting time, makes one compress request and adds one sample. -/
theorem frameStep_steady (cfg : Config) (w : World) (hs : Steady cfg w) (N : Int) (wf j : Nat)
    (fn t : Int) (cp : Bool) :
    (frameStep cfg w N wf j fn t cp).exit =
      StepExit.next (w.nextInterestingTime (decide (fn = 0)) t).1 ∧
    (frameStep cfg w N wf j fn t cp).completionProc = cp ∧
    compressResults (frameStep cfg w N wf j fn t cp).trace = [noErr] ∧
    sampleDurations (frameStep cfg w N wf j fn t cp).trace =
      [(w.nextInterestingTime (decide (fn = 0)) t).2] ∧
    queries (frameStep cfg w N wf j fn t cp).trace = [(decide (fn = 0), t)] ∧
    seekTimes (frameStep cfg w N wf j fn t cp).trace =
      [(w.nextInterestingTime (decide (fn = 0)) t).1] := by
  obtain ⟨h1, h2, h3, h4⟩ := hs
  have hc := (h4 j).1
  have ha := (h4 j).2
  by_cases hr : w.getDataRateSettings j = 0
  · simp [frameStep, planFrame, compressAndAdd, frameDurationMs, Step.after, h1, h2, h3, hc, ha,
      hr, compressResults, sampleDurations, queries, seekTimes]
  · simp [frameStep, planFrame, compressAndAdd, frameDurationMs, Step.after, h1, h2, h3, hc, ha,
      hr, compressResults, sampleDurations, queries, seekTimes]

/-- In a steady world with more than 32767 frames to compress the loop is still
running after any number of passes, each of which compressed and added a frame. -/
theorem steady_never_ends (cfg : Config) (w : World) (hs : Steady cfg w) (N : Int)
    (hN : 32767 < N) (wf fuel j : Nat) (fn t : Int) (cp : Bool) (hfn : fn ≤ 32767) :
    (frameLoop cfg w N wf fuel j fn t cp).exit = StepExit.stopped Status.outOfFuel ∧
    (compressResults (frameLoop cfg w N wf fuel j fn t cp).trace).length = fuel ∧
    (sampleDurations (frameLoop cfg w N wf fuel j fn t cp).trace).length = fuel := by
  induction fuel generalizing j fn t cp with
  | zero =>
    unfold frameLoop
    rw [if_pos (by omega)]
    simp [compressResults, sampleDurations]
  | succ n ih =>
    obtain ⟨hx, _, hcr, hsd, _, _⟩ := frameStep_steady cfg w hs N wf j fn t cp
    unfold frameLoop
    rw [if_pos (by omega)]
    simp only [hx]
    obtain ⟨e1, e2, e3⟩ := ih (j + 1) (wrapShort (fn + 1))
      (w.nextInterestingTime (decide (fn = 0)) t).1
      (frameStep cfg w N wf j fn t cp).completionProc (wrapShort_le _)
    refine ⟨by rw [after_exit_step]; exact e1, ?_, ?_⟩
    · simp only [Step.after, compressResults_append, hcr, List.length_append,
        List.length_singleton, e2]
      omega
    · simp only [Step.after, sampleDurations_append, hsd, List.length_append,
        List.length_singleton, e3]
      omega

theorem wrapShort_wrapShort_add (x : Int) (k : Nat) :
    wrapShort (wrapShort (x + 1) + k) = wrapShort (x + (k + 1 : Nat)) := by
  unfold wrapShort
  push_cast
  omega

/-- In a steady world with more than 32767 frames to compress, the query of pass `k`
of the loop has the edge flag set exactly when the `short` counter, which has
wrapped around `k` times modulo 65536, is 0. -/
theorem steady_query (cfg : Config) (w : World) (hs : Steady cfg w) (N : Int)
    (hN : 32767 < N) (wf : Nat) (k fuel j : Nat) (fn t : Int) (cp : Bool) (hk : k < fuel)
    (h1 : -32768 ≤ fn) (h2 : fn ≤ 32767) :
    ∃ from_, (queries (frameLoop cfg w N wf fuel j fn t cp).trace)[k]? =
      some (decide (wrapShort (fn + k) = 0), from_) := by
  induction k generalizing fuel j fn t cp with
  | zero =>
    obtain ⟨n, rfl⟩ : ∃ n, fuel = n + 1 := ⟨fuel - 1, by omega⟩
    obtain ⟨hx, _, _, _, hq, _⟩ := frameStep_steady cfg w hs N wf j fn t cp
    unfold frameLoop
    rw [if_pos (by omega)]
    simp only [hx]
    refine ⟨t, ?_⟩
    simp only [Step.after, queries_append, hq, List.singleton_append, List.getElem?_cons_zero,
      Nat.cast_zero, add_zero]
    rw [wrapShort_eq fn h1 h2]
  | succ k ih =>
    obtain ⟨n, rfl⟩ : ∃ n, fuel = n + 1 := ⟨fuel - 1, by omega⟩
    obtain ⟨hx, _, _, _, hq, _⟩ := frameStep_steady cfg w hs N wf j fn t cp
    unfold frameLoop
    rw [if_pos (by omega)]
    simp only [hx]
    obtain ⟨from_, hf⟩ := ih n (j + 1) (wrapShort (fn + 1))
      (w.nextInterestingTime (decide (fn = 0)) t).1
      (frameStep cfg w N wf j fn t cp).completionProc (by omega) (wrapShort_ge _) (wrapShort_le _)
    refine ⟨from_, ?_⟩
    simp only [Step.after, queries_append, hq, List.singleton_append, List.getElem?_cons_succ]
    rw [hf, wrapShort_wrapShort_add]

/-- In a steady world with at most 32767 frames to compress the loop runs to its end
once it is given as many passes as frames remain. -/
theorem steady_terminates (cfg : Config) (w : World) (hs : Steady cfg w) (N : Int)
    (hN : N ≤ 32767) (wf fuel j : Nat) (fn t : Int) (cp : Bool) (h1 : -32768 ≤ fn)
    (hfuel : (N - fn).toNat ≤ fuel) :
    ∃ time, (frameLoop cfg w N wf fuel j fn t cp).exit = StepExit.next time := by
  induction fuel generalizing j fn t cp with
  | zero =>
    unfold frameLoop
    rw [if_neg (by omega)]
    exact ⟨t, rfl⟩
  | succ n ih =>
    unfold frameLoop
    by_cases hlt : fn < N
    · obtain ⟨hx, _⟩ := frameStep_steady cfg w hs N wf j fn t cp
      rw [if_pos hlt]
      simp only [hx, after_exit_step]
      have hw : wrapShort (fn + 1) = fn + 1 := wrapShort_eq _ (by omega) (by omega)
      rw [hw]
      exact ih _ _ _ _ (by omega) (by omega)
    · rw [if_neg hlt]
      exact ⟨t, rfl⟩

theorem queries_eq_nil (t : List Call)
    (h : Routine.GetMovieNextInterestingTime ∉ routines t) : queries t = [] := by
  induction t with
  | nil => rfl
  | cons c t ih =>
    rw [routines_cons, List.mem_cons, not_or] at h
    cases c <;> simp_all [queries, Call.routine]

theorem seekTimes_eq_nil (t : List Call)
    (h : Routine.SetMovieTimeValue ∉ routines t) : seekTimes t = [] := by
  induction t with
  | nil => rfl
  | cons c t ih =>
    rw [routines_cons, List.mem_cons, not_or] at h
    cases c <;> simp_all [seekTimes, Call.routine]

/-- The queries of a run are those of its frame loop. -/
theorem run_queries (cfg : Config) (w : World) (fuel : Nat) :
    queries (QTCmpr_CompressSequence cfg w fuel).trace =
      match (setup cfg w).exit with
      | .loop N => queries (frameLoop cfg w N fuel fuel 0 0 0 false).trace
      | _ => [] := by
  have hs := queries_eq_nil _ (not_mem_routines _ _ _ (setup_routines cfg w) (by decide))
  have hb : ∀ l cp, queries (bail cfg l cp) = [] := fun l cp =>
    queries_eq_nil _ (not_mem_routines _ _ _ (bail_routines cfg l cp) (by decide))
  have hf : ∀ t, queries (finish w t) = [] := fun t =>
    queries_eq_nil _ (not_mem_routines _ _ _ (finish_routines w t) (by decide))
  unfold QTCmpr_CompressSequence
  simp only []
  split
  · next h => simp [h, queries_append, hs, hb]
  · next h => simp [h, hs]
  · next N h =>
    split <;> simp [h, queries_append, hs, hb, hf]

/-- A run whose frame loop is stopped ends with the status of the loop, and has made
the calls of the code before the loop and of the loop. -/
theorem run_of_stopped_loop (cfg : Config) (w : World) (fuel : Nat) (N : Int) (st : Status)
    (hN : (setup cfg w).exit = SetupExit.loop N)
    (hx : (frameLoop cfg w N fuel fuel 0 0 0 false).exit = StepExit.stopped st) :
    (QTCmpr_CompressSequence cfg w fuel).status = st ∧
    (QTCmpr_CompressSequence cfg w fuel).trace =
      (setup cfg w).trace ++ (frameLoop cfg w N fuel fuel 0 0 0 false).trace := by
  unfold QTCmpr_CompressSequence
  simp only [hN, hx, and_self]

theorem compressAndAdd_queries (cfg : Config) (w : World) (wf j : Nat) (time d : Int)
    (cp : Bool) : queries (compressAndAdd cfg w wf j time d cp).trace = [] :=
  queries_eq_nil _ (not_mem_routines _ _ _ (compressAndAdd_callsOnly cfg w wf j time d cp)
    (by decide))

theorem compressAndAdd_seekTimes (cfg : Config) (w : World) (wf j : Nat) (time d : Int)
    (cp : Bool) : seekTimes (compressAndAdd cfg w wf j time d cp).trace = [] :=
  seekTimes_eq_nil _ (not_mem_routines _ _ _ (compressAndAdd_callsOnly cfg w wf j time d cp)
    (by decide))

/-- With a blank frame rate, a pass of the loop body makes one query, with the edge
flag set when `myFrameNum` is 0 and starting from `myCurMovieTime`, seeks the movie
to the time the query returned, and passes no other duration to `AddMediaSample`
than the one the query returned. -/
theorem frameStep_preserve (cfg : Config) (w : World) (hR : w.frameRate = 0) (N : Int)
    (wf j : Nat) (fn t : Int) (cp : Bool) :
    queries (frameStep cfg w N wf j fn t cp).trace = [(decide (fn = 0), t)] ∧
    seekTimes (frameStep cfg w N wf j fn t cp).trace =
      [(w.nextInterestingTime (decide (fn = 0)) t).1] ∧
    (sampleDurations (frameStep cfg w N wf j fn t cp).trace = [] ∨
      sampleDurations (frameStep cfg w N wf j fn t cp).trace =
        [(w.nextInterestingTime (decide (fn = 0)) t).2]) ∧
    (∀ time, (frameStep cfg w N wf j fn t cp).exit = StepExit.next time →
      time = (w.nextInterestingTime (decide (fn = 0)) t).1 ∧
      sampleDurations (frameStep cfg w N wf j fn t cp).trace =
        [(w.nextInterestingTime (decide (fn = 0)) t).2]) := by
  have hq := compressAndAdd_queries cfg w wf j
    (w.nextInterestingTime (decide (fn = 0)) t).1 (w.nextInterestingTime (decide (fn = 0)) t).2 cp
  have hk := compressAndAdd_seekTimes cfg w wf j
    (w.nextInterestingTime (decide (fn = 0)) t).1 (w.nextInterestingTime (decide (fn = 0)) t).2 cp
  have hc := compressAndAdd_cases cfg w wf j
    (w.nextInterestingTime (decide (fn = 0)) t).1 (w.nextInterestingTime (decide (fn = 0)) t).2 cp
  simp only [] at hc
  have hsd : (sampleDurations (compressAndAdd cfg w wf j
        (w.nextInterestingTime (decide (fn = 0)) t).1
        (w.nextInterestingTime (decide (fn = 0)) t).2 cp).trace = [] ∨
      sampleDurations (compressAndAdd cfg w wf j
        (w.nextInterestingTime (decide (fn = 0)) t).1
        (w.nextInterestingTime (decide (fn = 0)) t).2 cp).trace =
        [(w.nextInterestingTime (decide (fn = 0)) t).2]) ∧
      (∀ time, (compressAndAdd cfg w wf j
        (w.nextInterestingTime (decide (fn = 0)) t).1
        (w.nextInterestingTime (decide (fn = 0)) t).2 cp).exit = StepExit.next time →
        time = (w.nextInterestingTime (decide (fn = 0)) t).1 ∧
        sampleDurations (compressAndAdd cfg w wf j
          (w.nextInterestingTime (decide (fn = 0)) t).1
          (w.nextInterestingTime (decide (fn = 0)) t).2 cp).trace =
          [(w.nextInterestingTime (decide (fn = 0)) t).2]) := by
    rcases hc with ⟨_, h | h | h | h⟩
    · exact ⟨Or.inl h.2.2.1, fun time hx => by rw [h.2.1] at hx; cases hx⟩
    · exact ⟨Or.inl h.2.2.1, fun time hx => by rw [h.2.1] at hx; cases hx⟩
    · exact ⟨Or.inr h.2.2.2.1, fun time hx => by rw [h.2.2.1] at hx; cases hx⟩
    · exact ⟨Or.inr h.2.2.2.1, fun time hx => by
        rw [h.2.2.1] at hx
        cases hx
        exact ⟨rfl, h.2.2.2.1⟩⟩
  unfold frameStep
  simp only [planFrame, hR, ne_eq, not_true_eq_false, if_false]
  split_ifs with hr
  · split
    · simp [queries, seekTimes, sampleDurations, queries_append, seekTimes_append,
        sampleDurations_append]
    · simp only [Step.after, queries_append, seekTimes_append, sampleDurations_append, hq, hk]
      simpa [queries, seekTimes, sampleDurations] using hsd
  · simp only [Step.after, queries_append, seekTimes_append, sampleDurations_append, hq, hk]
    simpa [queries, seekTimes, sampleDurations] using hsd

/-- With a blank frame rate, in a frame loop entered with the counter `fn` and the
movie time `t`: every sample time is the time returned by the query of its pass,
every duration passed to `AddMediaSample` is the duration returned by that query,
the first query starts from `t` with the edge flag set when `fn` is 0, and every
later query starts from the sample time of the pass before, with the edge flag set
when the `short` counter is 0. -/
theorem frameLoop_preserve_plan (cfg : Config) (w : World) (hR : w.frameRate = 0) (N : Int)
    (wf fuel j : Nat) (fn t : Int) (cp : Bool) :
    seekTimes (frameLoop cfg w N wf fuel j fn t cp).trace =
      (queries (frameLoop cfg w N wf fuel j fn t cp).trace).map
        (fun q => (w.nextInterestingTime q.1 q.2).1) ∧
    (∀ (i : Nat) (d : Int),
      (sampleDurations (frameLoop cfg w N wf fuel j fn t cp).trace)[i]? = some d →
      ∃ q : Bool × Int, (queries (frameLoop cfg w N wf fuel j fn t cp).trace)[i]? = some q ∧
        d = (w.nextInterestingTime q.1 q.2).2) ∧
    (∀ q : Bool × Int, (queries (frameLoop cfg w N wf fuel j fn t cp).trace)[0]? = some q →
      q = (decide (fn = 0), t)) ∧
    (∀ (i : Nat) (q : Bool × Int),
      (queries (frameLoop cfg w N wf fuel j fn t cp).trace)[i + 1]? = some q →
      (seekTimes (frameLoop cfg w N wf fuel j fn t cp).trace)[i]? = some q.2 ∧
      q.1 = decide (wrapShort (fn + ((i + 1 : Nat) : Int)) = 0)) := by
  induction fuel generalizing j fn t cp with
  | zero =>
    unfold frameLoop
    split <;> simp [queries, seekTimes, sampleDurations]
  | succ n ih =>
    unfold frameLoop
    by_cases hlt : fn < N
    · rw [if_pos hlt]
      obtain ⟨hq, hk, hsd, hnext⟩ := frameStep_preserve cfg w hR N wf j fn t cp
      simp only []
      split
      · next time hexit =>
        obtain ⟨htime, hsd'⟩ := hnext time hexit
        obtain ⟨i1, i2, i3, i4⟩ := ih (j + 1) (wrapShort (fn + 1)) time
          (frameStep cfg w N wf j fn t cp).completionProc
        simp only [Step.after, queries_append, seekTimes_append, sampleDurations_append, hq, hk,
          hsd', List.singleton_append, List.map_cons]
        refine ⟨by rw [i1], ?_, ?_, ?_⟩
        · intro i d hd
          cases i with
          | zero =>
            simp only [List.getElem?_cons_zero, Option.some.injEq] at hd ⊢
            exact ⟨_, rfl, hd.symm⟩
          | succ i =>
            simp only [List.getElem?_cons_succ] at hd ⊢
            exact i2 i d hd
        · intro q hq0
          simp only [List.getElem?_cons_zero, Option.some.injEq] at hq0
          exact hq0.symm
        · intro i q hqi
          simp only [List.getElem?_cons_succ] at hqi
          cases i with
          | zero =>
            have := i3 q hqi
            subst this
            simp only [List.getElem?_cons_zero, htime, Nat.cast_one, zero_add, and_self]
          | succ i =>
            obtain ⟨a, b⟩ := i4 i q hqi
            simp only [List.getElem?_cons_succ]
            refine ⟨a, ?_⟩
            rw [b, wrapShort_wrapShort_add]
      · simp only [hq, hk, List.map_cons, List.map_nil, true_and]
        refine ⟨?_, ?_, ?_⟩
        · intro i d hd
          rcases hsd with h | h
          · rw [h] at hd; simp at hd
          · rw [h] at hd
            cases i with
            | zero =>
              simp only [List.getElem?_cons_zero, Option.some.injEq] at hd ⊢
              exact ⟨_, rfl, hd.symm⟩
            | succ i => simp at hd
        · intro q hq0
          simp only [List.getElem?_cons_zero, Option.some.injEq] at hq0
          exact hq0.symm
        · intro i q hqi
          simp at hqi
    · rw [if_neg hlt]
      simp [queries, seekTimes, sampleDurations]

/-- With a blank frame rate, the first query of a run starts from time 0 with the
edge flag set, and the query for frame `i` has the edge flag set exactly when the
`short` counter is 0 in pass `i`, that is, when `i` is a multiple of 65536: no
frame `i` with `0 < i < 65536` is queried with the edge flag. -/
theorem run_preserve_queries (cfg : Config) (w : World) (fuel : Nat) (hR : w.frameRate = 0)
    (i : Nat) (q : Bool × Int)
    (h : (queries (QTCmpr_CompressSequence cfg w fuel).trace)[i]? = some q) :
    q.1 = decide (wrapShort i = 0) ∧ (i = 0 → q = (true, 0)) ∧
    (0 < i → i < 65536 → q.1 = false) := by
  rw [run_queries] at h
  split at h
  · next N hN =>
    obtain ⟨_, _, p3, p4⟩ := frameLoop_preserve_plan cfg w hR N fuel fuel 0 0 0 false
    have key : q.1 = decide (wrapShort i = 0) ∧ (i = 0 → q = (true, 0)) := by
      cases i with
      | zero =>
        have := p3 q h
        subst this
        exact ⟨by decide, fun _ => by simp⟩
      | succ i =>
        have := (p4 i q h).2
        rw [this]
        simp
    refine ⟨key.1, key.2, fun h0 h1 => ?_⟩
    rw [key.1]
    have : wrapShort i ≠ 0 := by unfold wrapShort; omega
    simp [this]
  · simp at h

/-! ## C12 : sample times with a blank frame rate -/

/-- C12, at the failing input.  The example of the claim holds: for the interesting
times 0, 100, 250, 400 the queries are (edge, from 0), (no edge, from 0), (no edge,
from 100), (no edge, from 250), the movie is sought to 0, 100, 250, 400 (and back to
its original time 0 after the label `bail`), and the durations are 100, 150, 150
and that of the last frame.  But in a movie of 70000 frames, every call succeeding,
the `short` counter `myFrameNum` is 0 again in pass 65536 (`wrapShort 65536 = 0`),
and the query for frame 65536 is made with the edge flag set. -/
theorem C12_edge_flag_set_again_at_65536 :
    queries (QTCmpr_CompressSequence syncBuild interestingTimesWorld 4).trace
      = [(true, 0), (false, 0), (false, 100), (false, 250)] ∧
    seekTimes (QTCmpr_CompressSequence syncBuild interestingTimesWorld 4).trace
      = [0, 100, 250, 400, 0] ∧
    sampleDurations (QTCmpr_CompressSequence syncBuild interestingTimesWorld 4).trace
      = [100, 150, 150, 50] ∧
    (setup syncBuild (longMovieWorld 70000)).exit = SetupExit.loop 70000 ∧
    wrapShort 65536 = 0 ∧
    ∃ fromTime, (queries (QTCmpr_CompressSequence syncBuild (longMovieWorld 70000) 65537).trace)[65536]?
      = some (true, fromTime) := by
  have hN : (setup syncBuild (longMovieWorld 70000)).exit = SetupExit.loop 70000 := by decide
  have hs : Steady syncBuild (longMovieWorld 70000) :=
    ⟨rfl, rfl, by decide, fun _ => ⟨rfl, rfl⟩⟩
  refine ⟨by decide, by decide, by decide, hN, by decide, ?_⟩
  obtain ⟨fromTime, h⟩ := steady_query syncBuild (longMovieWorld 70000) hs 70000 (by omega)
    65537 65536 65537 0 0 0 false (by omega) (by omega) (by omega)
  refine ⟨fromTime, ?_⟩
  rw [run_queries]
  simp only [hN]
  rw [h]
  have h0 : wrapShort (0 + ((65536 : Nat) : Int)) = 0 := by decide
  rw [h0]
  rfl

/-! ## C13 : the frame-duration hint -/

/-- When the time scale is not zero and `myDuration * 1000` fits a `long`, line 597
computes `duration * 1000 / timeScale` (C division). -/
theorem frameDurationMs_exact (d ts : Int) (hts : ts ≠ 0) (h1 : -2147483648 ≤ d * 1000)
    (h2 : d * 1000 ≤ 2147483647) :
    frameDurationMs d ts = some (Int.tdiv (d * 1000) ts) := by
  have hw : wrapLong (d * 1000) = d * 1000 := by unfold wrapLong; omega
  simp [frameDurationMs, hts, hw]

/-- In a pass of the loop body that plans the frame `(time, d)`: when the data-rate
settings are read (`SCGetInfo` returns `noErr`) the hint computed by line 597 is
written back with `SCSetInfo` before the frame is compressed; when they are not
read, the frame is compressed with no `SCSetInfo` in between. -/
theorem frameStep_hint (cfg : Config) (w : World) (N : Int) (wf j : Nat) (fn t : Int) (cp : Bool)
    (time d : Int) (hplan : (planFrame w N fn t).2 = some (time, d)) :
    (∀ ms, w.getDataRateSettings j = noErr → frameDurationMs d w.movieTimeScale = some ms →
      frameStep cfg w N wf j fn t cp =
        (compressAndAdd cfg w wf j time d cp).after
          ((planFrame w N fn t).1 ++
            [Call.SetMovieTimeValue time, Call.MoviesTask, Call.MoviesTask, Call.MoviesTask,
             Call.SCGetInfo .scDataRateSettingsType (some noErr), Call.GetMovieTimeScale,
             Call.SCSetInfo .scDataRateSettingsType (some ms)])) ∧
    (w.getDataRateSettings j ≠ noErr →
      frameStep cfg w N wf j fn t cp =
        (compressAndAdd cfg w wf j time d cp).after
          ((planFrame w N fn t).1 ++
            [Call.SetMovieTimeValue time, Call.MoviesTask, Call.MoviesTask, Call.MoviesTask,
             Call.SCGetInfo .scDataRateSettingsType (some (w.getDataRateSettings j))])) := by
  constructor
  · intro ms hr hms
    have hr0 : w.getDataRateSettings j = 0 := hr
    unfold frameStep
    simp only [hplan, hr0, if_true, hms, noErr, List.append_assoc, List.cons_append,
      List.nil_append]
  · intro hr
    have hr0 : ¬ w.getDataRateSettings j = 0 := hr
    unfold frameStep
    simp only [hplan, hr0, if_false]

/-- C13, at the failing input.  In a world where the settings are read, each pass
reads them, writes the hint back and then compresses (hint `100 * 1000 / 600 = 166`);
in a world where they cannot be read nothing is written.  But for a frame that
lasts 3000000 units at the time scale 30000 (100 seconds) the product
`myDuration * 1000` does not fit a 32-bit `long`: it wraps to -1294967296 and the
hint written is -43165, not `3000000 * 1000 / 30000 = 100000`. -/
theorem C13_hint_overflows_for_long_frame :
    (frameDurationHints (QTCmpr_CompressSequence syncBuild okWorld 3).trace = [166, 166, 166] ∧
      routines (rateAndCompress (QTCmpr_CompressSequence syncBuild okWorld 3).trace) =
        [Routine.SCGetInfo, Routine.SCSetInfo, Routine.SCCompressSequenceFrame,
         Routine.SCGetInfo, Routine.SCSetInfo, Routine.SCCompressSequenceFrame,
         Routine.SCGetInfo, Routine.SCSetInfo, Routine.SCCompressSequenceFrame]) ∧
    (frameDurationHints (QTCmpr_CompressSequence syncBuild noDataRateWorld 3).trace = [] ∧
      routines (rateAndCompress (QTCmpr_CompressSequence syncBuild noDataRateWorld 3).trace) =
        [Routine.SCGetInfo, Routine.SCCompressSequenceFrame,
         Routine.SCGetInfo, Routine.SCCompressSequenceFrame,
         Routine.SCGetInfo, Routine.SCCompressSequenceFrame]) ∧
    (sampleDurations (QTCmpr_CompressSequence syncBuild longFrameWorld 1).trace = [3000000] ∧
      wrapLong (3000000 * 1000) = -1294967296 ∧
      frameDurationHints (QTCmpr_CompressSequence syncBuild longFrameWorld 1).trace = [-43165] ∧
      Int.tdiv (3000000 * 1000) 30000 = 100000) := by
  decide

/-! ## C14 : the completion procedure -/

theorem int_land_zero (n : Int) : Int.land n 0 = 0 := by
  cases n with
  | ofNat m =>
    show Int.land (Int.ofNat m) (Int.ofNat 0) = 0
    simp [Int.land]
  | negSucc m =>
    show Int.land (Int.negSucc m) (Int.ofNat 0) = 0
    simp only [Int.land]
    norm_cast
    apply Nat.eq_of_testBit_eq
    intro i
    simp [Nat.ldiff, Nat.testBit_bitwise]

/-- The C expression `theFlags & codecCompletionDest` is not zero exactly when bit 1
(the bit of value 2) of `theFlags`, in two's complement, is set. -/
theorem land_codecCompletionDest (theFlags : Int) :
    Int.land theFlags codecCompletionDest ≠ 0 ↔ theFlags.testBit 1 = true := by
  have h2 : codecCompletionDest = Int.bit false (Int.bit true 0) := by
    simp [codecCompletionDest, Int.bit_val]
  have hx : theFlags = Int.bit theFlags.bodd (Int.bit theFlags.div2.bodd theFlags.div2.div2) := by
    rw [Int.bit_decomp, Int.bit_decomp]
  have ht : theFlags.testBit 1 = theFlags.div2.bodd := by
    conv_lhs => rw [hx]
    rw [show (1 : ℕ) = Nat.succ 0 from rfl, Int.testBit_bit_succ, Int.testBit_bit_zero]
  have hl : Int.land theFlags codecCompletionDest =
      2 * (bif theFlags.div2.bodd then 1 else 0) := by
    conv_lhs => rw [hx, h2]
    rw [Int.land_bit, Int.land_bit]
    simp [Int.bit_val, int_land_zero]
  rw [hl, ht]
  cases theFlags.div2.bodd <;> simp

/-- The procedure on a memory and the procedure on the variable addressed agree. -/
theorem completionProcOnMemory_at (theResult theFlags : Int) (theRefCon : Nat)
    (mem : Nat → Int) :
    completionProcOnMemory theResult theFlags theRefCon mem theRefCon =
      QTCmpr_CompletionProc theResult theFlags (decide (theRefCon ≠ 0)) (mem theRefCon) := by
  unfold completionProcOnMemory QTCmpr_CompletionProc
  by_cases h1 : Int.land theFlags codecCompletionDest ≠ 0 <;>
    by_cases h2 : theRefCon ≠ 0 <;> simp [h1, h2]

/-- Invocations none of which has the `codecCompletionDest` flag leave the variable
of the waiting loop as it is. -/
theorem deliver_unchanged (calls : List (Int × Int)) (v : Int)
    (h : ∀ c ∈ calls, c.2.testBit 1 = false) : deliver calls v = v := by
  unfold deliver
  induction calls generalizing v with
  | nil => rfl
  | cons c cs ih =>
    have hc : ¬ Int.land c.2 codecCompletionDest ≠ 0 := by
      rw [land_codecCompletionDest, h c (List.mem_cons_self _ _)]
      simp
    simp only [List.foldl_cons, QTCmpr_CompletionProc, hc, if_false]
    exact ih v (fun x hx => h x (List.mem_cons_of_mem _ hx))

/-- C14: `QTCmpr_CompletionProc` stores `theResult` into the variable addressed by
`theRefCon` when the `codecCompletionDest` bit of `theFlags` is set and `theRefCon`
is not `NULL`, and only then: on every other input the whole memory, that variable
included, is unchanged; in both cases every other variable keeps its value.  Hence
invocations without the bit leave the sentinel `kAsyncDefaultValue` of the waiting
loop in place. -/
theorem C14_completion_proc_stores_iff (theResult theFlags : Int) (theRefCon : Nat)
    (mem : Nat → Int) :
    ((theFlags.testBit 1 = true ∧ theRefCon ≠ 0) →
      completionProcOnMemory theResult theFlags theRefCon mem theRefCon = theResult) ∧
    (¬ (theFlags.testBit 1 = true ∧ theRefCon ≠ 0) →
      completionProcOnMemory theResult theFlags theRefCon mem = mem) ∧
    (∀ a, a ≠ theRefCon →
      completionProcOnMemory theResult theFlags theRefCon mem a = mem a) ∧
    (completionProcOnMemory theResult theFlags theRefCon mem theRefCon =
      QTCmpr_CompletionProc theResult theFlags (decide (theRefCon ≠ 0)) (mem theRefCon)) ∧
    (∀ (cfg : Config) (calls : List (Int × Int)), (∀ c ∈ calls, c.2.testBit 1 = false) →
      deliver calls cfg.kAsyncDefaultValue = cfg.kAsyncDefaultValue) := by
  refine ⟨?_, ?_, ?_, completionProcOnMemory_at _ _ _ _, fun cfg calls h =>
    deliver_unchanged calls _ h⟩
  · rintro ⟨h1, h2⟩
    have := (land_codecCompletionDest theFlags).2 h1
    simp [completionProcOnMemory, this, h2]
  · intro h
    unfold completionProcOnMemory
    by_cases h1 : Int.land theFlags codecCompletionDest ≠ 0
    · have hb := (land_codecCompletionDest theFlags).1 h1
      have h2 : ¬ theRefCon ≠ 0 := fun h2 => h ⟨hb, h2⟩
      simp [h1, h2]
    · simp [h1]
  · intro a ha
    unfold completionProcOnMemory
    split_ifs <;> simp [Function.update, ha]

/-- C14 at two invocations for the variable at address 7, which holds the sentinel
50: with the flags 2 (`codecCompletionDest`) the result -8960 is stored; with the
flags 1 the variable keeps the sentinel. -/
theorem C14_completion_proc_stores_iff_witness :
    completionProcOnMemory (-8960) 2 7 (fun _ => 50) 7 = -8960 ∧
    completionProcOnMemory (-8960) 1 7 (fun _ => 50) = (fun _ => 50) ∧
    deliver [(-8960, 1)] asyncBuild.kAsyncDefaultValue = asyncBuild.kAsyncDefaultValue :=
  ⟨(C14_completion_proc_stores_iff (-8960) 2 7 (fun _ => 50)).1 ⟨by decide, by decide⟩,
   (C14_completion_proc_stores_iff (-8960) 1 7 (fun _ => 50)).2.1 (by decide),
   (C14_completion_proc_stores_iff (-8960) 1 7 (fun _ => 50)).2.2.2.2 asyncBuild [(-8960, 1)]
     (by decide)⟩

/-! ## C15 : termination of the frame loop -/

/-- In a steady world every pass of the loop that compresses a frame adds it. -/
theorem steady_counts (cfg : Config) (w : World) (hs : Steady cfg w) (N : Int)
    (wf fuel j : Nat) (fn t : Int) (cp : Bool) :
    (compressResults (frameLoop cfg w N wf fuel j fn t cp).trace).length =
      (sampleDurations (frameLoop cfg w N wf fuel j fn t cp).trace).length := by
  induction fuel generalizing j fn t cp with
  | zero => unfold frameLoop; split <;> simp [compressResults, sampleDurations]
  | succ n ih =>
    obtain ⟨hx, _, hcr, hsd, _, _⟩ := frameStep_steady cfg w hs N wf j fn t cp
    unfold frameLoop
    split
    · simp only [hx, Step.after, compressResults_append, sampleDurations_append, hcr, hsd,
        List.length_append, List.length_singleton, ih]
    · simp [compressResults, sampleDurations]

/-- In a steady world with a frame count `N` of at most 32767, a run that reaches
the loop and is given at least `N` passes returns after exactly `N` passes of the
loop (none when `N` is negative). -/
theorem steady_run_ends (cfg : Config) (w : World) (hs : Steady cfg w) (N : Int) (fuel : Nat)
    (hN : (setup cfg w).exit = SetupExit.loop N) (h1 : N ≤ 32767) (hfuel : N.toNat ≤ fuel) :
    (QTCmpr_CompressSequence cfg w fuel).status = Status.returned ∧
    (compressResults (QTCmpr_CompressSequence cfg w fuel).trace).length = N.toNat := by
  obtain ⟨time, hx⟩ := steady_terminates cfg w hs N h1 fuel fuel 0 0 0 false (by omega)
    (by simpa using hfuel)
  obtain ⟨_, _, hlen⟩ :=
    frameLoop_finished cfg w N fuel fuel 0 0 0 false (by omega) (by omega) time hx
  have hc := steady_counts cfg w hs N fuel fuel 0 0 0 false
  refine ⟨?_, ?_⟩
  · unfold QTCmpr_CompressSequence
    simp only [hN, hx]
  · rw [run_compressResults]
    simp only [hN]
    rw [hc, hlen]
    simp

/-- C15, at the failing input: with a blank frame rate and a track of 32768 frames,
every call succeeding, the loop is entered with `myNumFrames = 32768`; the `short`
counter goes from 32767 to -32768, which is again below the count, and the loop
never ends: whatever number `fuel` of passes it is given, the run is still in the
loop after `fuel` passes, having made `fuel` compress requests, and has not called
`SCCompressSequenceEnd`.  When a 20-minute movie (duration 72000000 at time scale
60000) is resampled at 30 frames per second the count is 36000, beyond the range of
the counter too, and the sample time computed in pass 32768 is negative. -/
theorem C15_loop_never_ends_beyond_32767 (fuel : Nat) :
    (setup syncBuild (longMovieWorld 32768)).exit = SetupExit.loop 32768 ∧
    wrapShort (32767 + 1) = -32768 ∧
    (QTCmpr_CompressSequence syncBuild (longMovieWorld 32768) fuel).status = Status.outOfFuel ∧
    (compressResults (QTCmpr_CompressSequence syncBuild (longMovieWorld 32768) fuel).trace).length
      = fuel ∧
    Routine.SCCompressSequenceEnd ∉
      routines (QTCmpr_CompressSequence syncBuild (longMovieWorld 32768) fuel).trace ∧
    frameCountOf (resampleWorld 72000000 60000 (30 * 65536)) = some 36000 ∧
    resamplePlan (wrapShort (32767 + 1)) 72000000 36000 = some (-37749, 2000) := by
  have hN : (setup syncBuild (longMovieWorld 32768)).exit = SetupExit.loop 32768 := by decide
  have hs : Steady syncBuild (longMovieWorld 32768) :=
    ⟨rfl, rfl, by decide, fun _ => ⟨rfl, rfl⟩⟩
  obtain ⟨hx, hcr, _⟩ := steady_never_ends syncBuild (longMovieWorld 32768) hs 32768 (by omega)
    fuel fuel 0 0 0 false (by omega)
  obtain ⟨hst, htr⟩ := run_of_stopped_loop syncBuild (longMovieWorld 32768) fuel 32768 _ hN hx
  refine ⟨hN, by decide, hst, ?_, ?_, by decide, by decide⟩
  · rw [run_compressResults]
    simp only [hN]
    exact hcr
  · rw [htr, routines_append, List.mem_append, not_or]
    exact ⟨not_mem_routines _ _ _ (setup_routines _ _) (by decide),
      not_mem_routines _ _ _ (frameLoop_callsOnly _ _ _ _ _ _ _ _ _) (by decide)⟩

end QTCompress
